import Mathlib

/-!
# wishlist: listener orchestration (`server.go`)

A shallow embedding of `Serve`, `listenAndServe`, `closeAll`, `toAddress` and
`getFirstOpenPort`, followed by theorems about them.

The Go code talks to the outside world: TCP dials and binds, the injected server
factory, the `Close` of the servers. Every such call is an oracle of the environment. An
oracle receives the whole history of the run so far, so its answer may change over time
(a port may become free, a second bind on the same address may fail). Each call is
recorded, with its result, in a chronological trace, and the theorems read the behaviour
of `Serve` off that trace.

Conventions of the model:
* errors returned by the collaborators are ordinary error values, identified by their
  message; aggregates are built only by `multierror.Append`, whose documented behaviour
  (append, flatten, keep the order) is `multierrorAppend`;
* `net.JoinHostPort` is the standard library function: brackets are added exactly when
  the host contains a colon;
* ports are `int64` values; the increment of `config.lastPort` wraps around;
* `config.Endpoints` is a slice of pointers; the model keeps the list of the records
  pointed to, taken pairwise distinct, and returns the records as the run leaves them;
* `Endpoint.Valid` and `Endpoint.ShouldListen` are declared outside `server.go` and are
  parameters of the environment;
* logging and the registration of the signal channel leave no trace; the run of `Serve`
  that is modelled is the one in which the termination signal arrives.
-/

namespace Wishlist

/-! ## Errors -/

/-- An ordinary Go `error` value produced by a collaborator (dial, bind, factory,
close), identified by its message. -/
abbrev Err := String

/-- A Go `error` as returned by this package: either an ordinary error or a
`*multierror.Error` holding an ordered list of errors. -/
inductive GoError
  | plain (e : Err)
  | multi (errs : List Err)
  deriving DecidableEq

/-- The errors an error value contributes when it is appended to an aggregate. -/
def GoError.parts : GoError → List Err
  | .plain e => [e]
  | .multi es => es

/-- The library call `multierror.Append(err, e)` with a non-nil `e`: the result is always
an aggregate; an aggregate argument is flattened into it, order preserved. -/
def multierrorAppend (err : Option GoError) (e : GoError) : GoError :=
  match err with
  | none => .multi e.parts
  | some a => .multi (a.parts ++ e.parts)

/-- The error built by `fmt.Errorf("all ports unavailable")`. -/
def NoPortsAvailable : Err := "all ports unavailable"

/-! ## Data model -/

/-- A `wish.Middleware` value: the two directory stages, or a stage supplied by the
configuration. -/
inductive Middleware
  | listing
  | cmds
  | custom (tag : Nat)
  deriving DecidableEq

/-- The fields of `Endpoint` that `server.go` reads or writes. -/
structure Endpoint where
  name : String
  address : String
  middlewares : List Middleware
  deriving DecidableEq

/-- A server instance returned by the factory (`*ssh.Server`); its `Close` method is the
close handle recorded by `Serve`. -/
structure Server where
  id : Nat
  deriving DecidableEq

/-- One observable step of a run, with its result (`none` = no error). -/
inductive Event
  /-- The call `net.DialTimeout("tcp", addr, time.Second)`. -/
  | dial (addr : String) (err : Option Err)
  /-- The call `conn.Close()` on the probe connection to `addr`. -/
  | connClose (addr : String) (err : Option Err)
  /-- The call `listingMiddleware(config.Endpoints)`, with the records as they are at that
  moment. -/
  | listing (eps : List Endpoint)
  /-- The call `cmdsMiddleware(config.Endpoints)`, with the records as they are at that
  moment. -/
  | cmds (eps : List Endpoint)
  /-- The assignment `endpoint.Address = ...` on the record at registry position `idx`. -/
  | assign (idx : Nat) (addr : String)
  /-- The call `config.Factory(endpoint)` returned a server. -/
  | buildOk (ep : Endpoint) (s : Server)
  /-- The call `config.Factory(endpoint)` returned an error. -/
  | buildErr (ep : Endpoint) (e : Err)
  /-- The call `net.Listen("tcp", addr)`. -/
  | listen (addr : String) (err : Option Err)
  /-- The statement `go s.Serve(ln)`: the accept loop of `s` is started. -/
  | accept (s : Server)
  /-- A recorded close handle `s.Close` is invoked. -/
  | close (s : Server) (err : Option Err)
  /-- The receive `<-done`: the termination signal has arrived. -/
  | signal
  deriving DecidableEq

/-- The outside world. `valid` and `shouldListen` are the methods `Endpoint.Valid` and
`Endpoint.ShouldListen`, declared outside `server.go`. The other fields answer a call
given the history of the run so far. -/
structure Env where
  valid : Endpoint → Bool
  shouldListen : Endpoint → Bool
  /-- The result of `net.DialTimeout`: `none` when the connection is established. -/
  dial : List Event → String → Option Err
  /-- The result of `conn.Close()` on a probe connection. -/
  connClose : List Event → String → Option Err
  /-- The result of `net.Listen`: `none` when the listener is bound. -/
  listen : List Event → String → Option Err
  /-- The result of `s.Close()`. -/
  close : List Event → Server → Option Err

/-- The configuration. `endpoints` are the records the slice `config.Endpoints` points
to (pairwise distinct, non-nil pointers); `factory` is `config.Factory`. -/
structure Config where
  listen : String
  port : Int
  endpoints : List Endpoint
  factory : List Event → Endpoint → Except Err Server
  lastPort : Int

/-! ## Address Resolver -/

/-- The standard library's `net.JoinHostPort`: a host containing a colon is taken to be
an IPv6 literal and put in brackets. -/
def JoinHostPort (host port : String) : String :=
  if host.data.contains ':' then "[" ++ host ++ "]:" ++ port else host ++ ":" ++ port

/-- The function `toAddress`: `net.JoinHostPort(listen, fmt.Sprintf("%d", port))`. -/
def toAddress (listen : String) (port : Int) : String :=
  JoinHostPort listen (toString port)

/-- Two's complement wrap-around of `int64` arithmetic. -/
def wrapInt64 (x : Int) : Int :=
  (x + 9223372036854775808) % 18446744073709551616 - 9223372036854775808

/-! ## Port Negotiator -/

/-- Result of `getFirstOpenPort`: the two return values and the trace after the call. -/
structure ProbeResult where
  port : Int
  err : Option Err
  trace : List Event
  deriving DecidableEq

/-- The function `getFirstOpenPort(addr, ports...)`, started with history `tr`. -/
def getFirstOpenPort (env : Env) (tr : List Event) (addr : String) : List Int → ProbeResult
  | [] => ⟨0, some NoPortsAvailable, tr⟩
  | port :: ports =>
    match env.dial tr (toAddress addr port) with
    | some e => ⟨port, none, tr ++ [.dial (toAddress addr port) (some e)]⟩
    | none =>
      match env.connClose (tr ++ [.dial (toAddress addr port) none]) (toAddress addr port) with
      | some e =>
        ⟨0, some e, tr ++ [.dial (toAddress addr port) none, .connClose (toAddress addr port) (some e)]⟩
      | none =>
        getFirstOpenPort env
          (tr ++ [.dial (toAddress addr port) none, .connClose (toAddress addr port) none]) addr ports

/-! ## Shutdown Coordinator -/

/-- Result of `closeAll`: the returned error and the trace after the call. -/
structure CloseResult where
  err : Option GoError
  trace : List Event
  deriving DecidableEq

/-- The loop of `closeAll`, with the running value of `result`. -/
def closeLoop (env : Env) (result : Option GoError) (tr : List Event) : List Server → CloseResult
  | [] => ⟨result, tr⟩
  | s :: closes =>
    match env.close tr s with
    | some e => closeLoop env (some (multierrorAppend result (.plain e))) (tr ++ [.close s (some e)]) closes
    | none => closeLoop env result (tr ++ [.close s none]) closes

/-- The function `closeAll(closes)`, started with history `tr`. -/
def closeAll (env : Env) (tr : List Event) (closes : List Server) : CloseResult :=
  closeLoop env none tr closes

/-! ## Listener Orchestrator -/

/-- Result of `listenAndServe`: the two return values and the trace after the call. -/
structure StartResult where
  close : Option Server
  err : Option Err
  trace : List Event
  deriving DecidableEq

/-- The function `listenAndServe(config, endpoint)`, started with history `tr`. -/
def listenAndServe (config : Config) (env : Env) (tr : List Event) (endpoint : Endpoint) :
    StartResult :=
  match config.factory tr endpoint with
  | .error e => ⟨none, some e, tr ++ [.buildErr endpoint e]⟩
  | .ok s =>
    match env.listen (tr ++ [.buildOk endpoint s]) endpoint.address with
    | some e => ⟨none, some e, tr ++ [.buildOk endpoint s, .listen endpoint.address (some e)]⟩
    | none => ⟨some s, none, tr ++ [.buildOk endpoint s, .listen endpoint.address none, .accept s]⟩

/-- The local state of the `for` loop of `Serve`. -/
structure LoopState where
  lastPort : Int
  closes : List Server
  trace : List Event
  deriving DecidableEq

/-- What the `for` loop of `Serve` leaves behind: its state, the records of the working
registry after the pass, and the error that stopped it, if any. -/
structure LoopResult where
  state : LoopState
  records : List Endpoint
  err : Option Err
  deriving DecidableEq

/-- Lines 50-52 of `Serve`: an endpoint without address gets the next sequential port,
`atomic.AddInt64(&config.lastPort, 1)`, written into its record. -/
def assignAddress (config : Config) (idx : Nat) (st : LoopState) (endpoint : Endpoint) :
    Endpoint × LoopState :=
  if endpoint.address = "" then
    ({ endpoint with address := toAddress config.listen (wrapInt64 (st.lastPort + 1)) },
      { st with
        lastPort := wrapInt64 (st.lastPort + 1)
        trace := st.trace ++ [.assign idx (toAddress config.listen (wrapInt64 (st.lastPort + 1)))] })
  else (endpoint, st)

/-- The `for` loop of `Serve` over the remaining registry entries; `idx` is the registry
position of the first of them. -/
def startLoop (config : Config) (env : Env) (idx : Nat) (st : LoopState) :
    List Endpoint → LoopResult
  | [] => ⟨st, [], none⟩
  | endpoint :: rest =>
    if !env.valid endpoint || !env.shouldListen endpoint then
      let r := startLoop config env (idx + 1) st rest
      { r with records := endpoint :: r.records }
    else
      let a := assignAddress config idx st endpoint
      let r := listenAndServe config env a.2.trace a.1
      let closes := match r.close with
        | some s => a.2.closes ++ [s]
        | none => a.2.closes
      match r.err with
      | some e => ⟨⟨a.2.lastPort, closes, r.trace⟩, a.1 :: rest, some e⟩
      | none =>
        let r2 := startLoop config env (idx + 1) ⟨a.2.lastPort, closes, r.trace⟩ rest
        { r2 with records := a.1 :: r2.records }

/-- What a run of `Serve` leaves behind: the returned error, the trace, the
configuration as mutated by the run, and the final value of the local `closes`. -/
structure Outcome where
  err : Option GoError
  trace : List Event
  config : Config
  closes : List Server

/-- The synthetic directory endpoint built by `Serve`. -/
def directory (listen : String) (port : Int) : Endpoint :=
  { name := "list", address := toAddress listen port, middlewares := [.listing, .cmds] }

/-- Lines 36-69 of `Serve`: the startup loop over the working registry, then the rollback
after a failure, or the wait for the termination signal and the shutdown. The run modelled
is the one in which the signal arrives. `tr` is the history so far. -/
def serveRegistry (env : Env) (tr : List Event) (config : Config) : Outcome :=
  let dir := directory config.listen config.port
  let tr := tr ++ [.listing config.endpoints, .cmds config.endpoints]
  let r := startLoop config env 0 ⟨config.lastPort, [], tr⟩ (dir :: config.endpoints)
  let config := { config with lastPort := r.state.lastPort, endpoints := r.records.tail }
  match r.err with
  | some e =>
    let c := closeAll env r.state.trace r.state.closes
    match c.err with
    | some e2 => ⟨some (multierrorAppend (some (.plain e)) e2), c.trace, config, r.state.closes⟩
    | none => ⟨some (.plain e), c.trace, config, r.state.closes⟩
  | none =>
    let c := closeAll env (r.state.trace ++ [.signal]) r.state.closes
    ⟨c.err, c.trace, config, r.state.closes⟩

/-- Lines 31-35 of `Serve`: the default listen host and the start value of
`config.lastPort`. -/
def prepare (config : Config) : Config :=
  let config := if config.listen = "" then { config with listen := "127.0.0.1" } else config
  { config with lastPort := config.port }

/-- The function `Serve` from line 31 on (the port is resolved), started with history `tr`. -/
def serveResolved (env : Env) (tr : List Event) (config : Config) : Outcome :=
  serveRegistry env tr (prepare config)

/-- The function `Serve(config)`. -/
def Serve (env : Env) (config : Config) : Outcome :=
  if config.port = 0 then
    let r := getFirstOpenPort env [] config.listen [22, 2222]
    match r.err with
    | some e => ⟨some (.plain e), r.trace, config, []⟩
    | none => serveResolved env r.trace { config with port := r.port }
  else
    serveResolved env [] config


/-! ## Reading a trace -/

/-- The trace of probing `ports` in order when every one of them accepts the connection
and every probe connection closes without error. -/
def busyTrace (addr : String) : List Int → List Event
  | [] => []
  | p :: ps =>
    .dial (toAddress addr p) none :: .connClose (toAddress addr p) none :: busyTrace addr ps

/-- What the close handles `closes` return when invoked one after the other from
history `tr`. -/
def closeResults (env : Env) (tr : List Event) : List Server → List (Option Err)
  | [] => []
  | s :: closes => env.close tr s :: closeResults env (tr ++ [.close s (env.close tr s)]) closes

/-- The error of a failed server construction or a failed bind; `none` for any other event. -/
def Event.startError : Event → Option Err
  | .buildErr _ e => some e
  | .listen _ (some e) => some e
  | _ => none

/-- Events of the startup loop: address assignment, construction, bind, accept loop. -/
def Event.isStartup : Event → Bool
  | .assign _ _ => true
  | .buildOk _ _ => true
  | .buildErr _ _ => true
  | .listen _ _ => true
  | .accept _ => true
  | _ => false

/-- Invocations of a recorded close handle. -/
def Event.isClose : Event → Bool
  | .close _ _ => true
  | _ => false

/-- Events of the port negotiation: a probe dial or the close of a probe connection. -/
def Event.isProbe : Event → Bool
  | .dial _ _ => true
  | .connClose _ _ => true
  | _ => false

/-- The servers whose accept loop was started, in start order. -/
def started : List Event → List Server
  | [] => []
  | .accept s :: tr => s :: started tr
  | _ :: tr => started tr

/-- The servers whose close handle was invoked, in invocation order. -/
def closed : List Event → List Server
  | [] => []
  | .close s _ :: tr => s :: closed tr
  | _ :: tr => closed tr

/-- The addresses on which a listener was bound, in bind order. -/
def bound : List Event → List String
  | [] => []
  | .listen a none :: tr => a :: bound tr
  | _ :: tr => bound tr

/-- The listen host after the defaulting of lines 31-33. -/
def resolvedListen (config : Config) : String :=
  if config.listen = "" then "127.0.0.1" else config.listen

/-- The address plan of the specification: an endpoint with an explicit address keeps it,
and the `k`-th endpoint without one gets `toAddress h (p + k)`, the sum being taken in
`int64`; `k` counts the address-less endpoints met so far. -/
def seqAddrs (h : String) (p : Int) : Nat → List Endpoint → List String
  | _, [] => []
  | k, e :: es =>
    if e.address = "" then toAddress h (wrapInt64 (p + (k + 1))) :: seqAddrs h p (k + 1) es
    else e.address :: seqAddrs h p k es

/-- How a run may change the record of a configured endpoint: not at all, or, for a valid
and listen-enabled endpoint declared without address, by the assignment of an address,
which the trace `tr` shows as an `assign` event. -/
def RecordStep (env : Env) (tr : List Event) (e e' : Endpoint) : Prop :=
  e' = e ∨
  (e.address = "" ∧ env.valid e = true ∧ env.shouldListen e = true ∧
    e' = { e with address := e'.address } ∧ e'.address ≠ "" ∧
    ∃ i, Event.assign i e'.address ∈ tr)

/-- The addresses carried by the final records of the registry entries that are valid and
listen-enabled; `eps` are the entries as declared, `recs` their final records. -/
def listenedAddrs (env : Env) (eps recs : List Endpoint) : List String :=
  ((eps.zip recs).filter (fun x => env.valid x.1 && env.shouldListen x.1)).map
    (fun x => x.2.address)


/-! ## Concrete environments and configurations -/

/-- A world in which port 22 of every host is occupied, every other dial is refused, and
closing a probe connection fails. -/
def envCloseFails : Env :=
  { valid := fun _ => true
    shouldListen := fun _ => true
    dial := fun _ a => if a = "127.0.0.1:22" then none else some "connection refused"
    connClose := fun _ _ => some "close failed"
    listen := fun _ _ => none
    close := fun _ _ => none }

/-- A world in which every dial is accepted and every probe connection closes at once
with an error. -/
def envAllBusyCloseFails : Env :=
  { valid := fun _ => true
    shouldListen := fun _ => true
    dial := fun _ _ => none
    connClose := fun _ _ => some "close failed"
    listen := fun _ _ => none
    close := fun _ _ => none }

/-- A world in which ports 22 and 2222 of 127.0.0.1 are occupied and port 8022 is free;
everything closes cleanly. -/
def envBusy : Env :=
  { valid := fun _ => true
    shouldListen := fun _ => true
    dial := fun _ a =>
      if a = "127.0.0.1:22" ∨ a = "127.0.0.1:2222" then none else some "connection refused"
    connClose := fun _ _ => none
    listen := fun _ _ => none
    close := fun _ _ => none }

/-- A world in which the close handle of server 1 fails and the others succeed. -/
def envOneCloseFails : Env :=
  { valid := fun _ => true
    shouldListen := fun _ => true
    dial := fun _ _ => some "connection refused"
    connClose := fun _ _ => none
    listen := fun _ _ => none
    close := fun _ s => if s.id = 1 then some "close 1 failed" else none }

/-- A factory that always succeeds; the server it returns is numbered by the accept loops
started so far. -/
def factoryOk : List Event → Endpoint → Except Err Server :=
  fun tr _ => .ok ⟨(started tr).length⟩

/-- A world in which the address 127.0.0.1:2200 is held by another process, every other
bind succeeds, and the close handle of server 0 fails. -/
def envBindFails : Env :=
  { valid := fun _ => true
    shouldListen := fun _ => true
    dial := fun _ _ => some "connection refused"
    connClose := fun _ _ => none
    listen := fun _ a => if a = "127.0.0.1:2200" then some "address already in use" else none
    close := fun _ s => if s.id = 0 then some "close 0 failed" else none }

/-- Three endpoints on port 22: the first without address, the second on the explicit
address 127.0.0.1:2200, the third without address. -/
def configThree : Config :=
  { listen := "127.0.0.1"
    port := 22
    endpoints := [⟨"a", "", [.custom 1]⟩, ⟨"b", "127.0.0.1:2200", [.custom 2]⟩,
      ⟨"c", "", [.custom 3]⟩]
    factory := factoryOk
    lastPort := 0 }

/-- No configured port, host 127.0.0.1, two endpoints without address. -/
def configTwo : Config :=
  { listen := "127.0.0.1"
    port := 0
    endpoints := [⟨"a", "", [.custom 1]⟩, ⟨"b", "", [.custom 2]⟩]
    factory := factoryOk
    lastPort := 0 }

/-- A world in which nothing is occupied and nothing fails. -/
def envFree : Env :=
  { valid := fun _ => true
    shouldListen := fun _ => true
    dial := fun _ _ => some "connection refused"
    connClose := fun _ _ => none
    listen := fun _ _ => none
    close := fun _ _ => none }

/-- A factory that hands out one and the same server, number 7, for every endpoint. -/
def factoryShared : List Event → Endpoint → Except Err Server :=
  fun _ _ => .ok ⟨7⟩

/-- One endpoint on the explicit address 127.0.0.1:2200, port 22, and the factory that
shares one server among all endpoints. -/
def configShared : Config :=
  { listen := "127.0.0.1"
    port := 22
    endpoints := [⟨"b", "127.0.0.1:2200", [.custom 2]⟩]
    factory := factoryShared
    lastPort := 0 }


/-! # Theorems -/

/-! ## Address Resolver: theorems -/

/-- The clean probe trace of a concatenation is the concatenation of the traces. -/
theorem busyTrace_append (addr : String) (a b : List Int) :
    busyTrace addr (a ++ b) = busyTrace addr a ++ busyTrace addr b := by
  induction a with
  | nil => rfl
  | cons p ps ih => simp [busyTrace, ih]

/-- The characters of an address. -/
theorem toAddress_data (host : String) (port : Int) :
    (toAddress host port).data =
      if ':' ∈ host.data then '[' :: (host.data ++ ']' :: ':' :: (toString port).data)
      else host.data ++ ':' :: (toString port).data := by
  unfold toAddress JoinHostPort
  by_cases h : ':' ∈ host.data
  · simp [h, String.data_append]
  · simp [h, String.data_append]

/-- An address is never the empty string. -/
theorem toAddress_ne_empty (host : String) (port : Int) : toAddress host port ≠ "" := by
  intro h
  have h1 := toAddress_data host port
  rw [h] at h1
  by_cases hc : ':' ∈ host.data
  · simp [hc] at h1
  · simp [hc] at h1

/-- C6, counterexample: a host that is already a bracketed IPv6 literal is bracketed a
second time, so the result is not the canonical `[::1]:22`. -/
theorem toAddress_bracketed_host_counterexample :
    toAddress "[::1]" 22 = "[[::1]]:22" ∧ toAddress "[::1]" 22 ≠ "[::1]:22" := by
  decide

/-- C6, amended: `toAddress` returns the host, a colon and the decimal port when the host
contains no colon; when the host contains a colon it encloses the host, as given, in one
more pair of brackets, so a host `[h]` that is already bracketed comes out as `[[h]]:port`. -/
theorem toAddress_spec (host : String) (port : Int) :
    (':' ∉ host.data → toAddress host port = host ++ ":" ++ toString port) ∧
    (':' ∈ host.data → toAddress host port = "[" ++ host ++ "]:" ++ toString port) ∧
    (':' ∈ host.data →
      toAddress ("[" ++ host ++ "]") port = "[[" ++ host ++ "]]:" ++ toString port) := by
  refine ⟨fun h => ?_, fun h => ?_, fun h => ?_⟩
  · simp [toAddress, JoinHostPort, h]
  · simp [toAddress, JoinHostPort, h]
  · have hc : ':' ∈ ("[" ++ host ++ "]").data := by
      simp [String.data_append, h]
    apply String.ext
    simp [toAddress, JoinHostPort, h, String.data_append]

/-- C6, witness: an IPv6 host, a host name, and a bracketed IPv6 host. -/
theorem toAddress_spec_witness :
    toAddress "::1" 22 = "[" ++ "::1" ++ "]:" ++ toString (22 : Int) ∧
    toAddress "localhost" 22 = "localhost" ++ ":" ++ toString (22 : Int) ∧
    toAddress ("[" ++ "::1" ++ "]") 22 = "[[" ++ "::1" ++ "]]:" ++ toString (22 : Int) :=
  ⟨(toAddress_spec "::1" 22).2.1 (by decide), (toAddress_spec "localhost" 22).1 (by decide),
    (toAddress_spec "::1" 22).2.2 (by decide)⟩

/-! ## Port Negotiator: theorems -/

/-- Probing a run of occupied candidates whose probe connections close cleanly just moves
on to the remaining candidates. -/
theorem getFirstOpenPort_skip_busy (env : Env) (addr : String) (pre rest : List Int) :
    ∀ tr : List Event,
    (∀ a q b, pre = a ++ q :: b →
      env.dial (tr ++ busyTrace addr a) (toAddress addr q) = none ∧
      env.connClose (tr ++ busyTrace addr a ++ [.dial (toAddress addr q) none])
        (toAddress addr q) = none) →
    getFirstOpenPort env tr addr (pre ++ rest) =
      getFirstOpenPort env (tr ++ busyTrace addr pre) addr rest := by
  induction pre with
  | nil => intro tr _; simp [busyTrace]
  | cons q0 pre ih =>
    intro tr h
    have h0 := h [] q0 pre rfl
    simp only [busyTrace, List.append_nil] at h0
    have ht := ih (tr ++ [.dial (toAddress addr q0) none, .connClose (toAddress addr q0) none])
      (by
        intro a q b hab
        have := h (q0 :: a) q b (by simp [hab])
        simpa [busyTrace, List.append_assoc] using this)
    simp only [List.cons_append, getFirstOpenPort, h0.1, h0.2, List.append_eq]
    rw [ht]
    simp [busyTrace, List.append_assoc]

/-- C1, counterexample: port 22 is occupied and closing its probe connection fails; 2222 is
unoccupied, yet the call returns port 0 with the close error instead of 2222. -/
theorem getFirstOpenPort_close_error_counterexample :
    (∀ tr, envCloseFails.dial tr (toAddress "127.0.0.1" 22) = none) ∧
    (∀ tr, envCloseFails.dial tr (toAddress "127.0.0.1" 2222) ≠ none) ∧
    getFirstOpenPort envCloseFails [] "127.0.0.1" [22, 2222] =
      ⟨0, some "close failed",
        [.dial "127.0.0.1:22" none, .connClose "127.0.0.1:22" (some "close failed")]⟩ := by
  refine ⟨fun tr => ?_, fun tr => ?_, by decide⟩
  · show (if toAddress "127.0.0.1" 22 = "127.0.0.1:22" then (none : Option Err)
      else some "connection refused") = none
    decide
  · show (if toAddress "127.0.0.1" 2222 = "127.0.0.1:22" then (none : Option Err)
      else some "connection refused") ≠ none
    decide

/-- C1, amended: when the candidates before `p` are occupied and their probe connections
close without error, then, if the probe of `p` fails, `getFirstOpenPort` returns `p`
without error, right after that probe: no later candidate is tried. If instead `p` is
occupied and closing its probe connection fails, the call returns port 0 with that close
error, whatever the later candidates are. -/
theorem getFirstOpenPort_first_free (env : Env) (tr : List Event) (addr : String)
    (pre : List Int) (p : Int) (post : List Int)
    (hbusy : ∀ a q b, pre = a ++ q :: b →
      env.dial (tr ++ busyTrace addr a) (toAddress addr q) = none ∧
      env.connClose (tr ++ busyTrace addr a ++ [.dial (toAddress addr q) none])
        (toAddress addr q) = none) :
    (∀ e, env.dial (tr ++ busyTrace addr pre) (toAddress addr p) = some e →
      getFirstOpenPort env tr addr (pre ++ p :: post) =
        ⟨p, none, tr ++ busyTrace addr pre ++ [.dial (toAddress addr p) (some e)]⟩) ∧
    (∀ e, env.dial (tr ++ busyTrace addr pre) (toAddress addr p) = none →
      env.connClose (tr ++ busyTrace addr pre ++ [.dial (toAddress addr p) none])
        (toAddress addr p) = some e →
      getFirstOpenPort env tr addr (pre ++ p :: post) =
        ⟨0, some e, tr ++ busyTrace addr pre ++
          [.dial (toAddress addr p) none, .connClose (toAddress addr p) (some e)]⟩) := by
  rw [getFirstOpenPort_skip_busy env addr pre (p :: post) tr hbusy]
  refine ⟨fun e hfree => ?_, fun e hd hc => ?_⟩
  · simp [getFirstOpenPort, hfree]
  · simp only [getFirstOpenPort, hd]
    rw [hc]

/-- C1, witness: 22 and 2222 are occupied, 8022 is free. -/
theorem getFirstOpenPort_first_free_witness :
    getFirstOpenPort envBusy [] "127.0.0.1" ([22, 2222] ++ 8022 :: [9022]) =
      ⟨8022, none, [] ++ busyTrace "127.0.0.1" [22, 2222] ++
        [.dial (toAddress "127.0.0.1" 8022) (some "connection refused")]⟩ :=
  (getFirstOpenPort_first_free envBusy [] "127.0.0.1" [22, 2222] 8022 [9022]
    (by
      intro a q b h
      have hq : q = 22 ∨ q = 2222 := by
        have : q ∈ [22, 2222] := by rw [h]; simp
        simpa using this
      rcases hq with rfl | rfl
      · exact ⟨(by decide : (if toAddress "127.0.0.1" 22 = "127.0.0.1:22" ∨
          toAddress "127.0.0.1" 22 = "127.0.0.1:2222" then (none : Option Err)
          else some "connection refused") = none), rfl⟩
      · exact ⟨(by decide : (if toAddress "127.0.0.1" 2222 = "127.0.0.1:22" ∨
          toAddress "127.0.0.1" 2222 = "127.0.0.1:2222" then (none : Option Err)
          else some "connection refused") = none), rfl⟩)).1
    "connection refused" (by decide)


/-- C2, counterexample: every candidate is occupied, but closing the first probe
connection fails; the call fails with that close error, not with `NoPortsAvailable`. -/
theorem getFirstOpenPort_all_busy_counterexample :
    (∀ tr a, envAllBusyCloseFails.dial tr a = none) ∧
    getFirstOpenPort envAllBusyCloseFails [] "127.0.0.1" [22, 2222] =
      ⟨0, some "close failed",
        [.dial "127.0.0.1:22" none, .connClose "127.0.0.1:22" (some "close failed")]⟩ ∧
    (getFirstOpenPort envAllBusyCloseFails [] "127.0.0.1" [22, 2222]).err ≠
      some NoPortsAvailable := by
  refine ⟨fun _ _ => rfl, by decide, by decide⟩

/-- When every candidate accepts the probe connection, the call returns port 0 and an
error. -/
theorem getFirstOpenPort_busy_fails (env : Env) (addr : String) (ports : List Int) :
    ∀ tr : List Event,
    (∀ a q b, ports = a ++ q :: b →
      env.dial (tr ++ busyTrace addr a) (toAddress addr q) = none) →
    (getFirstOpenPort env tr addr ports).port = 0 ∧
    (getFirstOpenPort env tr addr ports).err ≠ none := by
  induction ports with
  | nil => intro tr _; simp [getFirstOpenPort]
  | cons q0 ports ih =>
    intro tr h
    have h0 := h [] q0 ports rfl
    simp only [busyTrace, List.append_nil] at h0
    simp only [getFirstOpenPort, h0]
    cases hc : env.connClose (tr ++ [.dial (toAddress addr q0) none]) (toAddress addr q0) with
    | some e => simp
    | none =>
      simp only
      apply ih
      intro a q b hab
      have := h (q0 :: a) q b (by simp [hab])
      simpa [busyTrace, List.append_assoc] using this

/-- C2, amended: when every candidate is occupied, `getFirstOpenPort` returns port 0
together with an error (also for the empty list). The error is `NoPortsAvailable` when
every probe connection closes without error; otherwise it is the error of the first
probe close that fails, and the candidates after it are not probed. -/
theorem getFirstOpenPort_all_busy (env : Env) (tr : List Event) (addr : String)
    (ports : List Int)
    (hdial : ∀ a q b, ports = a ++ q :: b →
      env.dial (tr ++ busyTrace addr a) (toAddress addr q) = none) :
    ((getFirstOpenPort env tr addr ports).port = 0 ∧
      (getFirstOpenPort env tr addr ports).err ≠ none) ∧
    ((∀ a q b, ports = a ++ q :: b →
        env.connClose (tr ++ busyTrace addr a ++ [.dial (toAddress addr q) none])
          (toAddress addr q) = none) →
      getFirstOpenPort env tr addr ports =
        ⟨0, some NoPortsAvailable, tr ++ busyTrace addr ports⟩) ∧
    (∀ a q b e, ports = a ++ q :: b →
      (∀ a1 q1 b1, a = a1 ++ q1 :: b1 →
        env.connClose (tr ++ busyTrace addr a1 ++ [.dial (toAddress addr q1) none])
          (toAddress addr q1) = none) →
      env.connClose (tr ++ busyTrace addr a ++ [.dial (toAddress addr q) none])
        (toAddress addr q) = some e →
      getFirstOpenPort env tr addr ports =
        ⟨0, some e, tr ++ busyTrace addr a ++
          [.dial (toAddress addr q) none, .connClose (toAddress addr q) (some e)]⟩) := by
  refine ⟨getFirstOpenPort_busy_fails env addr ports tr hdial, fun hclose => ?_, ?_⟩
  · have := getFirstOpenPort_skip_busy env addr ports [] tr
      (fun a q b hab => ⟨hdial a q b hab, hclose a q b hab⟩)
    rw [List.append_nil] at this
    rw [this]
    simp [getFirstOpenPort]
  · intro a q b e hab hpre hq
    subst hab
    rw [getFirstOpenPort_skip_busy env addr a (q :: b) tr
      (fun a1 q1 b1 h1 => ⟨hdial a1 q1 (b1 ++ q :: b) (by simp [h1]), hpre a1 q1 b1 h1⟩)]
    have hd := hdial a q b rfl
    simp only [getFirstOpenPort, hd]
    rw [hq]

/-- C2, witness: 22 and 2222 are occupied and their probe connections close cleanly. -/
theorem getFirstOpenPort_all_busy_witness :
    getFirstOpenPort envBusy [] "127.0.0.1" [22, 2222] =
      ⟨0, some NoPortsAvailable, [] ++ busyTrace "127.0.0.1" [22, 2222]⟩ :=
  (getFirstOpenPort_all_busy envBusy [] "127.0.0.1" [22, 2222]
    (by
      intro a q b h
      have hq : q = 22 ∨ q = 2222 := by
        have : q ∈ [22, 2222] := by rw [h]; simp
        simpa using this
      rcases hq with rfl | rfl
      · exact (by decide : (if toAddress "127.0.0.1" 22 = "127.0.0.1:22" ∨
          toAddress "127.0.0.1" 22 = "127.0.0.1:2222" then (none : Option Err)
          else some "connection refused") = none)
      · exact (by decide : (if toAddress "127.0.0.1" 2222 = "127.0.0.1:22" ∨
          toAddress "127.0.0.1" 2222 = "127.0.0.1:2222" then (none : Option Err)
          else some "connection refused") = none))).2.1
    (fun _ _ _ _ => rfl)

/-! ## Shutdown Coordinator: theorems -/

/-- The loop of `closeAll` invokes the handles in order and appends every error returned
to the errors already held by the running `result`. -/
theorem closeLoop_spec (env : Env) (closes : List Server) :
    ∀ (acc : Option GoError) (tr : List Event),
    (closeLoop env acc tr closes).trace =
      tr ++ List.zipWith Event.close closes (closeResults env tr closes) ∧
    (closeLoop env acc tr closes).err =
      if (closeResults env tr closes).reduceOption = [] then acc
      else some (.multi ((acc.map GoError.parts).getD [] ++
        (closeResults env tr closes).reduceOption)) := by
  induction closes with
  | nil => intro acc tr; simp [closeLoop, closeResults]
  | cons s closes ih =>
    intro acc tr
    cases hc : env.close tr s with
    | none =>
      have := ih acc (tr ++ [.close s none])
      simp only [closeLoop, closeResults, hc, List.zipWith_cons_cons,
        List.reduceOption_cons_of_none]
      refine ⟨by rw [this.1]; simp, this.2⟩
    | some e =>
      have := ih (some (multierrorAppend acc (.plain e))) (tr ++ [.close s (some e)])
      simp only [closeLoop, closeResults, hc, List.zipWith_cons_cons,
        List.reduceOption_cons_of_some]
      refine ⟨by rw [this.1]; simp, ?_⟩
      rw [this.2]
      cases acc with
      | none => simp [multierrorAppend, GoError.parts]
      | some a => simp [multierrorAppend, GoError.parts]

/-- Every handle returns one result. -/
theorem closeResults_length (env : Env) (closes : List Server) :
    ∀ tr : List Event, (closeResults env tr closes).length = closes.length := by
  induction closes with
  | nil => intro tr; rfl
  | cons s closes ih => intro tr; simp [closeResults, ih]

/-- C3: `closeAll` invokes every handle exactly once, in list order, whatever the earlier
handles return; it returns no error if and only if every close succeeded, and otherwise
the aggregate of exactly the errors the failing handles returned, in handle order. -/
theorem closeAll_spec (env : Env) (tr : List Event) (closes : List Server) :
    (closeAll env tr closes).trace =
      tr ++ List.zipWith Event.close closes (closeResults env tr closes) ∧
    (closeResults env tr closes).length = closes.length ∧
    ((closeAll env tr closes).err = none ↔ ∀ r ∈ closeResults env tr closes, r = none) ∧
    (closeAll env tr closes).err =
      (if (closeResults env tr closes).reduceOption = [] then none
       else some (.multi (closeResults env tr closes).reduceOption)) := by
  have h := closeLoop_spec env closes none tr
  have herr : (closeAll env tr closes).err =
      (if (closeResults env tr closes).reduceOption = [] then none
       else some (.multi (closeResults env tr closes).reduceOption)) := by
    simpa [closeAll] using h.2
  refine ⟨h.1, closeResults_length env closes tr, ?_, herr⟩
  rw [herr]
  by_cases hr : (closeResults env tr closes).reduceOption = []
  · simp only [hr, if_true, true_iff]
    intro r hmem
    cases r with
    | none => rfl
    | some e =>
      have : e ∈ (closeResults env tr closes).reduceOption :=
        List.reduceOption_mem_iff.mpr hmem
      rw [hr] at this
      simp at this
  · simp only [hr, if_false]
    constructor
    · intro h0; simp at h0
    · intro hall
      exfalso
      apply hr
      apply List.eq_nil_iff_forall_not_mem.mpr
      intro e he
      have := hall (some e) (List.reduceOption_mem_iff.mp he)
      simp at this

/-- C3, witness: three handles, the second of which fails. -/
theorem closeAll_spec_witness :
    (closeAll envOneCloseFails [] [⟨0⟩, ⟨1⟩, ⟨2⟩]).trace =
      [.close ⟨0⟩ none, .close ⟨1⟩ (some "close 1 failed"), .close ⟨2⟩ none] ∧
    (closeAll envOneCloseFails [] [⟨0⟩, ⟨1⟩, ⟨2⟩]).err =
      some (.multi ["close 1 failed"]) :=
  ⟨(closeAll_spec envOneCloseFails [] [⟨0⟩, ⟨1⟩, ⟨2⟩]).1.trans (by decide),
    (closeAll_spec envOneCloseFails [] [⟨0⟩, ⟨1⟩, ⟨2⟩]).2.2.2.trans (by decide)⟩


/-! ## Listener Orchestrator: the startup loop -/

/-- The three readers of a trace distribute over concatenation. -/
theorem started_append (a b : List Event) : started (a ++ b) = started a ++ started b := by
  induction a with
  | nil => rfl
  | cons ev a ih => cases ev <;> simp [started, ih]

theorem closed_append (a b : List Event) : closed (a ++ b) = closed a ++ closed b := by
  induction a with
  | nil => rfl
  | cons ev a ih => cases ev <;> simp [closed, ih]

theorem bound_append (a b : List Event) : bound (a ++ b) = bound a ++ bound b := by
  induction a with
  | nil => rfl
  | cons ev a ih =>
    cases ev with
    | listen x r => cases r <;> simp [bound, ih]
    | _ => simp [bound, ih]

/-- The three ways `listenAndServe` can end. -/
theorem listenAndServe_cases (config : Config) (env : Env) (tr : List Event) (ep : Endpoint) :
    (∃ e, listenAndServe config env tr ep = ⟨none, some e, tr ++ [.buildErr ep e]⟩) ∨
    (∃ s e, listenAndServe config env tr ep =
      ⟨none, some e, tr ++ [.buildOk ep s, .listen ep.address (some e)]⟩) ∨
    (∃ s, listenAndServe config env tr ep =
      ⟨some s, none, tr ++ [.buildOk ep s, .listen ep.address none, .accept s]⟩) := by
  unfold listenAndServe
  cases hf : config.factory tr ep with
  | error e => exact Or.inl ⟨e, rfl⟩
  | ok s =>
    cases hl : env.listen (tr ++ [.buildOk ep s]) ep.address with
    | some e => exact Or.inr (Or.inl ⟨s, e, by simp [hl]⟩)
    | none => exact Or.inr (Or.inr ⟨s, by simp [hl]⟩)

/-- The two ways `assignAddress` can end. -/
theorem assignAddress_cases (config : Config) (idx : Nat) (st : LoopState) (ep : Endpoint) :
    (ep.address ≠ "" ∧ assignAddress config idx st ep = (ep, st)) ∨
    (ep.address = "" ∧ assignAddress config idx st ep =
      ({ ep with address := toAddress config.listen (wrapInt64 (st.lastPort + 1)) },
        ⟨wrapInt64 (st.lastPort + 1), st.closes,
          st.trace ++ [.assign idx (toAddress config.listen (wrapInt64 (st.lastPort + 1)))]⟩)) := by
  unfold assignAddress
  by_cases h : ep.address = ""
  · exact Or.inr ⟨h, by simp [h]⟩
  · exact Or.inl ⟨h, by simp [h]⟩

/-- One iteration of the loop of `Serve`: the endpoint is skipped, or its construction
fails, or its bind fails, or it is started and the loop goes on. -/
theorem startLoop_cons (config : Config) (env : Env) (idx : Nat) (st : LoopState)
    (ep : Endpoint) (rest : List Endpoint) :
    ((env.valid ep && env.shouldListen ep) = false ∧
      startLoop config env idx st (ep :: rest) =
        { startLoop config env (idx + 1) st rest with
          records := ep :: (startLoop config env (idx + 1) st rest).records }) ∨
    ((env.valid ep && env.shouldListen ep) = true ∧
      ((∃ e, startLoop config env idx st (ep :: rest) =
          ⟨⟨(assignAddress config idx st ep).2.lastPort, (assignAddress config idx st ep).2.closes,
            (assignAddress config idx st ep).2.trace ++
              [.buildErr (assignAddress config idx st ep).1 e]⟩,
            (assignAddress config idx st ep).1 :: rest, some e⟩) ∨
       (∃ s e, startLoop config env idx st (ep :: rest) =
          ⟨⟨(assignAddress config idx st ep).2.lastPort, (assignAddress config idx st ep).2.closes,
            (assignAddress config idx st ep).2.trace ++
              [.buildOk (assignAddress config idx st ep).1 s,
               .listen (assignAddress config idx st ep).1.address (some e)]⟩,
            (assignAddress config idx st ep).1 :: rest, some e⟩) ∨
       (∃ s, startLoop config env idx st (ep :: rest) =
          { startLoop config env (idx + 1)
              ⟨(assignAddress config idx st ep).2.lastPort,
                (assignAddress config idx st ep).2.closes ++ [s],
                (assignAddress config idx st ep).2.trace ++
                  [.buildOk (assignAddress config idx st ep).1 s,
                   .listen (assignAddress config idx st ep).1.address none, .accept s]⟩ rest with
            records := (assignAddress config idx st ep).1 ::
              (startLoop config env (idx + 1)
                ⟨(assignAddress config idx st ep).2.lastPort,
                  (assignAddress config idx st ep).2.closes ++ [s],
                  (assignAddress config idx st ep).2.trace ++
                    [.buildOk (assignAddress config idx st ep).1 s,
                     .listen (assignAddress config idx st ep).1.address none,
                     .accept s]⟩ rest).records }))) := by
  by_cases hg : (env.valid ep && env.shouldListen ep) = true
  · right
    refine ⟨hg, ?_⟩
    have hg2 : (!env.valid ep || !env.shouldListen ep) = false := by
      cases hv : env.valid ep <;> cases hs : env.shouldListen ep <;> simp_all
    rcases listenAndServe_cases config env (assignAddress config idx st ep).2.trace
      (assignAddress config idx st ep).1 with ⟨e, h⟩ | ⟨s, e, h⟩ | ⟨s, h⟩
    · exact Or.inl ⟨e, by simp [startLoop, hg2, h]⟩
    · exact Or.inr (Or.inl ⟨s, e, by simp [startLoop, hg2, h]⟩)
    · exact Or.inr (Or.inr ⟨s, by simp [startLoop, hg2, h]⟩)
  · left
    have hg1 : (env.valid ep && env.shouldListen ep) = false := by simpa using hg
    have hg2 : (!env.valid ep || !env.shouldListen ep) = true := by
      cases hv : env.valid ep <;> cases hs : env.shouldListen ep <;> simp_all
    exact ⟨hg1, by simp [startLoop, hg2]⟩


/-- The address assignment adds at most one event, an `assign`, and records no handle. -/
theorem assignAddress_trace (config : Config) (idx : Nat) (st : LoopState) (ep : Endpoint) :
    ∃ A, (assignAddress config idx st ep).2.trace = st.trace ++ A ∧
      (assignAddress config idx st ep).2.closes = st.closes ∧
      (∀ ev ∈ A, ev.isStartup = true ∧ ev.startError = none) ∧
      started A = [] ∧ bound A = [] := by
  rcases assignAddress_cases config idx st ep with ⟨_, h⟩ | ⟨_, h⟩
  · exact ⟨[], by simp [h, started, bound]⟩
  · exact ⟨[.assign idx (toAddress config.listen (wrapInt64 (st.lastPort + 1)))], by
      simp [h, Event.isStartup, Event.startError, started, bound]⟩

/-- Shape of the trace of the startup loop: it only adds startup events, the handles it
records are those of the accept loops it started, and a construction or bind failure, if
there is one, is the last event. -/
theorem startLoop_trace (config : Config) (env : Env) (eps : List Endpoint) :
    ∀ (idx : Nat) (st : LoopState), ∃ L,
      (startLoop config env idx st eps).state.trace = st.trace ++ L ∧
      (∀ ev ∈ L, ev.isStartup = true) ∧
      (startLoop config env idx st eps).state.closes = st.closes ++ started L ∧
      ((startLoop config env idx st eps).err = none → ∀ ev ∈ L, ev.startError = none) ∧
      (∀ e, (startLoop config env idx st eps).err = some e →
        ∃ L0 fe, L = L0 ++ [fe] ∧ (∀ ev ∈ L0, ev.startError = none) ∧
          fe.startError = some e) := by
  induction eps with
  | nil => intro idx st; exact ⟨[], by simp [startLoop, started]⟩
  | cons ep rest ih =>
    intro idx st
    obtain ⟨A, hA1, hA2, hA3, hA4, _⟩ := assignAddress_trace config idx st ep
    rcases startLoop_cons config env idx st ep rest with ⟨_, h⟩ | ⟨_, ⟨e, h⟩ | ⟨s, e, h⟩ | ⟨s, h⟩⟩
    · obtain ⟨L, h1, h2, h3, h4, h5⟩ := ih (idx + 1) st
      rw [h]
      exact ⟨L, h1, h2, h3, h4, h5⟩
    · rw [h, hA1, hA2]
      refine ⟨A ++ [.buildErr (assignAddress config idx st ep).1 e], by simp, ?_, ?_, ?_, ?_⟩
      · intro ev hev
        rcases List.mem_append.mp hev with h1 | h1
        · exact (hA3 ev h1).1
        · simp at h1; subst h1; rfl
      · simp [started_append, hA4, started]
      · intro h0; simp at h0
      · intro e1 he1
        simp at he1
        subst he1
        exact ⟨A, .buildErr (assignAddress config idx st ep).1 e, rfl,
          fun ev hev => (hA3 ev hev).2, rfl⟩
    · rw [h, hA1, hA2]
      refine ⟨A ++ [.buildOk (assignAddress config idx st ep).1 s,
        .listen (assignAddress config idx st ep).1.address (some e)], by simp, ?_, ?_, ?_, ?_⟩
      · intro ev hev
        rcases List.mem_append.mp hev with h1 | h1
        · exact (hA3 ev h1).1
        · simp at h1; rcases h1 with h1 | h1 <;> subst h1 <;> rfl
      · simp [started_append, hA4, started]
      · intro h0; simp at h0
      · intro e1 he1
        simp at he1
        subst he1
        refine ⟨A ++ [.buildOk (assignAddress config idx st ep).1 s],
          .listen (assignAddress config idx st ep).1.address (some e), by simp, ?_, rfl⟩
        intro ev hev
        rcases List.mem_append.mp hev with h1 | h1
        · exact (hA3 ev h1).2
        · simp at h1; subst h1; rfl
    · obtain ⟨L, h1, h2, h3, h4, h5⟩ := ih (idx + 1)
        ⟨(assignAddress config idx st ep).2.lastPort,
          (assignAddress config idx st ep).2.closes ++ [s],
          (assignAddress config idx st ep).2.trace ++
            [.buildOk (assignAddress config idx st ep).1 s,
             .listen (assignAddress config idx st ep).1.address none, .accept s]⟩
      rw [h]
      simp only at h1 h3 h4 h5 ⊢
      have hpre : ∀ ev ∈ A ++ [Event.buildOk (assignAddress config idx st ep).1 s,
          .listen (assignAddress config idx st ep).1.address none, .accept s],
          ev.isStartup = true ∧ ev.startError = none := by
        intro ev hev
        rcases List.mem_append.mp hev with h6 | h6
        · exact hA3 ev h6
        · simp at h6; rcases h6 with h6 | h6 | h6 <;> subst h6 <;> exact ⟨rfl, rfl⟩
      refine ⟨A ++ [.buildOk (assignAddress config idx st ep).1 s,
        .listen (assignAddress config idx st ep).1.address none, .accept s] ++ L,
        by rw [h1, hA1]; simp, ?_, ?_, ?_, ?_⟩
      · intro ev hev
        rcases List.mem_append.mp hev with h6 | h6
        · exact (hpre ev h6).1
        · exact h2 ev h6
      · rw [h3, hA2]; simp [started_append, hA4, started]
      · intro h0 ev hev
        rcases List.mem_append.mp hev with h6 | h6
        · exact (hpre ev h6).2
        · exact h4 h0 ev h6
      · intro e1 he1
        obtain ⟨L0, fe, hL, hL0, hfe⟩ := h5 e1 he1
        refine ⟨A ++ [.buildOk (assignAddress config idx st ep).1 s,
          .listen (assignAddress config idx st ep).1.address none, .accept s] ++ L0, fe,
          by rw [hL]; simp, ?_, hfe⟩
        intro ev hev
        rcases List.mem_append.mp hev with h6 | h6
        · exact (hpre ev h6).2
        · exact hL0 ev h6


/-! ## Listener Orchestrator: shape of a run -/

/-- The configuration after lines 31-35. -/
theorem prepare_fields (config : Config) :
    (prepare config).listen = resolvedListen config ∧ (prepare config).port = config.port ∧
    (prepare config).endpoints = config.endpoints ∧ (prepare config).lastPort = config.port ∧
    (prepare config).factory = config.factory := by
  unfold prepare resolvedListen
  by_cases h : config.listen = "" <;> simp [h]

/-- The error returned by `closeAll`. -/
theorem closeAll_err (env : Env) (tr : List Event) (closes : List Server) :
    (closeAll env tr closes).err =
      if (closeResults env tr closes).reduceOption = [] then none
      else some (.multi (closeResults env tr closes).reduceOption) := by
  have h := (closeLoop_spec env closes none tr).2
  simpa [closeAll] using h

/-- The trace left by `closeAll`. -/
theorem closeAll_trace (env : Env) (tr : List Event) (closes : List Server) :
    (closeAll env tr closes).trace =
      tr ++ List.zipWith Event.close closes (closeResults env tr closes) :=
  (closeLoop_spec env closes none tr).1

/-- Shape of a run from line 36 on: the two directory stages are built over the configured
endpoints, the startup loop runs, and then either the signal is awaited and all recorded
handles are closed, or, after the first failure, the recorded handles are closed at once. -/
theorem serveRegistry_shape (env : Env) (tr : List Event) (config : Config) :
    ∃ L, (∀ ev ∈ L, ev.isStartup = true) ∧
      (serveRegistry env tr config).closes = started L ∧
      (((∀ ev ∈ L, ev.startError = none) ∧
        (serveRegistry env tr config).trace =
          tr ++ [.listing config.endpoints, .cmds config.endpoints] ++ L ++ [.signal] ++
            List.zipWith Event.close (started L)
              (closeResults env
                (tr ++ [.listing config.endpoints, .cmds config.endpoints] ++ L ++ [.signal])
                (started L)) ∧
        (serveRegistry env tr config).err =
          if (closeResults env
              (tr ++ [.listing config.endpoints, .cmds config.endpoints] ++ L ++ [.signal])
              (started L)).reduceOption = [] then none
          else some (.multi (closeResults env
              (tr ++ [.listing config.endpoints, .cmds config.endpoints] ++ L ++ [.signal])
              (started L)).reduceOption)) ∨
       (∃ L0 fe e, L = L0 ++ [fe] ∧ (∀ ev ∈ L0, ev.startError = none) ∧
        fe.startError = some e ∧
        (serveRegistry env tr config).trace =
          tr ++ [.listing config.endpoints, .cmds config.endpoints] ++ L ++
            List.zipWith Event.close (started L)
              (closeResults env
                (tr ++ [.listing config.endpoints, .cmds config.endpoints] ++ L) (started L)) ∧
        (serveRegistry env tr config).err =
          if (closeResults env
              (tr ++ [.listing config.endpoints, .cmds config.endpoints] ++ L)
              (started L)).reduceOption = [] then some (.plain e)
          else some (.multi (e :: (closeResults env
              (tr ++ [.listing config.endpoints, .cmds config.endpoints] ++ L)
              (started L)).reduceOption)))) := by
  obtain ⟨L, h1, h2, h3, h4, h5⟩ := startLoop_trace config env
    (directory config.listen config.port :: config.endpoints) 0
    ⟨config.lastPort, [], tr ++ [.listing config.endpoints, .cmds config.endpoints]⟩
  simp only [List.nil_append] at h1 h3
  refine ⟨L, h2, ?_, ?_⟩
  · unfold serveRegistry
    simp only []
    split
    · split <;> exact h3
    · exact h3
  · cases herr : (startLoop config env 0
        ⟨config.lastPort, [], tr ++ [.listing config.endpoints, .cmds config.endpoints]⟩
        (directory config.listen config.port :: config.endpoints)).err with
    | none =>
      left
      refine ⟨h4 herr, ?_, ?_⟩
      · unfold serveRegistry
        simp only [herr, closeAll_trace, h1, h3]
      · unfold serveRegistry
        simp only [herr, closeAll_err, h1, h3]
    | some e =>
      right
      obtain ⟨L0, fe, hL, hL0, hfe⟩ := h5 e herr
      refine ⟨L0, fe, e, hL, hL0, hfe, ?_, ?_⟩
      · unfold serveRegistry
        simp only [herr]
        split <;> simp only [closeAll_trace, h1, h3]
      · unfold serveRegistry
        simp only [herr]
        split
        · rename_i e2 he2
          rw [closeAll_err, h1, h3] at he2
          by_cases hne : (closeResults env
              (tr ++ [.listing config.endpoints, .cmds config.endpoints] ++ L)
              (started L)).reduceOption = []
          · rw [if_pos hne] at he2
            exact absurd he2 (by simp)
          · rw [if_neg hne] at he2
            rw [if_neg hne]
            simp only [Option.some.injEq] at he2
            subst he2
            simp [multierrorAppend, GoError.parts]
        · rename_i he2
          rw [closeAll_err, h1, h3] at he2
          by_cases hne : (closeResults env
              (tr ++ [.listing config.endpoints, .cmds config.endpoints] ++ L)
              (started L)).reduceOption = []
          · rw [if_pos hne]
          · rw [if_neg hne] at he2
            exact absurd he2 (by simp)


/-- The negotiation only adds probe events to the history. -/
theorem getFirstOpenPort_probe_only (env : Env) (addr : String) (ports : List Int) :
    ∀ tr : List Event, ∃ P, (getFirstOpenPort env tr addr ports).trace = tr ++ P ∧
      ∀ ev ∈ P, ev.isProbe = true := by
  induction ports with
  | nil => intro tr; exact ⟨[], by simp [getFirstOpenPort]⟩
  | cons p ports ih =>
    intro tr
    cases hd : env.dial tr (toAddress addr p) with
    | some e =>
      exact ⟨[.dial (toAddress addr p) (some e)], by simp [getFirstOpenPort, hd, Event.isProbe]⟩
    | none =>
      cases hc : env.connClose (tr ++ [.dial (toAddress addr p) none]) (toAddress addr p) with
      | some e =>
        exact ⟨[.dial (toAddress addr p) none, .connClose (toAddress addr p) (some e)], by
          simp [getFirstOpenPort, hd, hc, Event.isProbe]⟩
      | none =>
        obtain ⟨P, h1, h2⟩ := ih
          (tr ++ [.dial (toAddress addr p) none, .connClose (toAddress addr p) none])
        refine ⟨[.dial (toAddress addr p) none, .connClose (toAddress addr p) none] ++ P, ?_, ?_⟩
        · simp only [getFirstOpenPort, hd, hc]
          rw [h1]; simp
        · intro ev hev
          rcases List.mem_append.mp hev with h | h
          · simp at h; rcases h with h | h <;> subst h <;> rfl
          · exact h2 ev h

/-- Shape of a run of `Serve`: either the port negotiation fails and `Serve` returns its
error at once, or `Serve` goes on from line 31 with the resolved port, the history being
the probes of the negotiation (none when the port is configured). -/
theorem Serve_shape (env : Env) (config : Config) :
    (config.port = 0 ∧ ∃ e,
      (getFirstOpenPort env [] config.listen [22, 2222]).err = some e ∧
      (Serve env config).err = some (.plain e) ∧
      (Serve env config).trace = (getFirstOpenPort env [] config.listen [22, 2222]).trace ∧
      (Serve env config).closes = []) ∨
    (∃ P p, (∀ ev ∈ P, ev.isProbe = true) ∧
      ((config.port ≠ 0 ∧ p = config.port ∧ P = []) ∨
       (config.port = 0 ∧ (getFirstOpenPort env [] config.listen [22, 2222]).err = none ∧
        p = (getFirstOpenPort env [] config.listen [22, 2222]).port ∧
        P = (getFirstOpenPort env [] config.listen [22, 2222]).trace)) ∧
      Serve env config = serveRegistry env P (prepare { config with port := p })) := by
  by_cases h0 : config.port = 0
  · cases he : (getFirstOpenPort env [] config.listen [22, 2222]).err with
    | some e =>
      left
      refine ⟨h0, e, rfl, ?_, ?_, ?_⟩ <;> simp [Serve, h0, he]
    | none =>
      right
      obtain ⟨P, hP1, hP2⟩ := getFirstOpenPort_probe_only env config.listen [22, 2222] []
      refine ⟨(getFirstOpenPort env [] config.listen [22, 2222]).trace,
        (getFirstOpenPort env [] config.listen [22, 2222]).port, ?_,
        Or.inr ⟨h0, rfl, rfl, rfl⟩, ?_⟩
      · rw [hP1]; simpa using hP2
      · simp [Serve, h0, he, serveResolved]
  · right
    refine ⟨[], config.port, by simp, Or.inl ⟨h0, rfl, rfl⟩, ?_⟩
    simp [Serve, h0, serveResolved]

/-- A trace without startup events starts no accept loop. -/
theorem started_eq_nil (l : List Event) (h : ∀ ev ∈ l, ev.isStartup = false) :
    started l = [] := by
  induction l with
  | nil => rfl
  | cons ev l ih =>
    have h1 := h ev (List.mem_cons_self _ _)
    have h2 := ih (fun x hx => h x (List.mem_cons_of_mem _ hx))
    cases ev <;> simp_all [started, Event.isStartup]

/-- A trace without startup events binds no listener. -/
theorem bound_eq_nil (l : List Event) (h : ∀ ev ∈ l, ev.isStartup = false) :
    bound l = [] := by
  induction l with
  | nil => rfl
  | cons ev l ih =>
    have h1 := h ev (List.mem_cons_self _ _)
    have h2 := ih (fun x hx => h x (List.mem_cons_of_mem _ hx))
    cases ev <;> simp_all [bound, Event.isStartup]

/-- A trace without close events closes no handle. -/
theorem closed_eq_nil (l : List Event) (h : ∀ ev ∈ l, ev.isClose = false) :
    closed l = [] := by
  induction l with
  | nil => rfl
  | cons ev l ih =>
    have h1 := h ev (List.mem_cons_self _ _)
    have h2 := ih (fun x hx => h x (List.mem_cons_of_mem _ hx))
    cases ev <;> simp_all [closed, Event.isClose]

/-- The kinds of events are disjoint. -/
theorem isProbe_kinds (ev : Event) (h : ev.isProbe = true) :
    ev.isStartup = false ∧ ev.isClose = false ∧ ev.startError = none ∧ ev ≠ .signal := by
  cases ev <;> simp_all [Event.isProbe, Event.isStartup, Event.isClose, Event.startError]

theorem isStartup_kinds (ev : Event) (h : ev.isStartup = true) :
    ev.isProbe = false ∧ ev.isClose = false ∧ ev ≠ .signal := by
  cases ev <;> simp_all [Event.isProbe, Event.isStartup, Event.isClose]

theorem isClose_kinds (ev : Event) (h : ev.isClose = true) :
    ev.isProbe = false ∧ ev.isStartup = false ∧ ev.startError = none ∧ ev ≠ .signal := by
  cases ev <;> simp_all [Event.isProbe, Event.isStartup, Event.isClose, Event.startError]

/-- A batch of closes consists of close events only. -/
theorem zipWith_close_isClose (cs : List Server) :
    ∀ (rs : List (Option Err)), ∀ ev ∈ List.zipWith Event.close cs rs, ev.isClose = true := by
  induction cs with
  | nil => intro rs ev hev; simp at hev
  | cons c cs ih =>
    intro rs ev hev
    cases rs with
    | nil => simp at hev
    | cons r rs =>
      simp only [List.zipWith_cons_cons, List.mem_cons] at hev
      rcases hev with h | h
      · subst h; rfl
      · exact ih rs ev h

/-- A batch of closes, one result per handle, closes exactly the handles given. -/
theorem closed_zipWith_close (cs : List Server) :
    ∀ (rs : List (Option Err)), rs.length = cs.length →
      closed (List.zipWith Event.close cs rs) = cs := by
  induction cs with
  | nil => intro rs _; simp [closed]
  | cons c cs ih =>
    intro rs h
    cases rs with
    | nil => simp at h
    | cons r rs =>
      simp only [List.length_cons, Nat.add_right_cancel_iff] at h
      simp [closed, ih rs h]


/-- Reading of a trace made of probes, the two stage constructions, startup events, an
optional signal and a batch of close events. -/
theorem trace_reading (P L : List Event) (eps : List Endpoint) (S : List Event)
    (cs : List Server) (rs : List (Option Err))
    (hP : ∀ ev ∈ P, ev.isProbe = true) (hL : ∀ ev ∈ L, ev.isStartup = true)
    (hS : S = [] ∨ S = [.signal]) (hrs : rs.length = cs.length) :
    started (P ++ [.listing eps, .cmds eps] ++ L ++ S ++ List.zipWith Event.close cs rs) =
      started L ∧
    closed (P ++ [.listing eps, .cmds eps] ++ L ++ S ++ List.zipWith Event.close cs rs) = cs ∧
    (∀ ev ∈ P ++ [.listing eps, .cmds eps] ++ L ++ S, ev.isClose = false) ∧
    (∀ ev ∈ P ++ [.listing eps, .cmds eps] ++ L ++ S ++ List.zipWith Event.close cs rs,
      ev.startError ≠ none → ev ∈ L) := by
  have hPs : started P = [] := started_eq_nil P (fun ev h => (isProbe_kinds ev (hP ev h)).1)
  have hPc : closed P = [] := closed_eq_nil P (fun ev h => (isProbe_kinds ev (hP ev h)).2.1)
  have hLc : closed L = [] := closed_eq_nil L (fun ev h => (isStartup_kinds ev (hL ev h)).2.1)
  have hZs : started (List.zipWith Event.close cs rs) = [] :=
    started_eq_nil _ (fun ev h => (isClose_kinds ev (zipWith_close_isClose cs rs ev h)).2.1)
  have hZc := closed_zipWith_close cs rs hrs
  have hSs : started S = [] := by rcases hS with h | h <;> subst h <;> rfl
  have hSc : closed S = [] := by rcases hS with h | h <;> subst h <;> rfl
  refine ⟨?_, ?_, ?_, ?_⟩
  · simp [started_append, hPs, hZs, hSs, started]
  · simp [closed_append, hPc, hLc, hZc, hSc, closed]
  · intro ev hev
    simp only [List.mem_append, List.mem_cons, List.mem_singleton, List.not_mem_nil,
      or_false] at hev
    rcases hev with ((h | h | h) | h) | h
    · exact (isProbe_kinds ev (hP ev h)).2.1
    · subst h; rfl
    · subst h; rfl
    · exact (isStartup_kinds ev (hL ev h)).2.1
    · rcases hS with h1 | h1 <;> subst h1 <;> simp at h
      subst h; rfl
  · intro ev hev hne
    simp only [List.mem_append, List.mem_cons, List.mem_singleton, List.not_mem_nil,
      or_false] at hev
    rcases hev with (((h | h | h) | h) | h) | h
    · exact absurd (isProbe_kinds ev (hP ev h)).2.2.1 hne
    · subst h; exact absurd rfl hne
    · subst h; exact absurd rfl hne
    · exact h
    · rcases hS with h1 | h1 <;> subst h1 <;> simp at h
      subst h; exact absurd rfl hne
    · exact absurd (isClose_kinds ev (zipWith_close_isClose cs rs ev h)).2.2.1 hne

/-- C7: in every run of `Serve` the close handles invoked are exactly the recorded ones,
each once and in the order in which the listeners were started; every close comes after
every start, in one batch; and that batch follows either the termination signal or a
startup failure, never both. -/
theorem Serve_closes_each_handle_once (env : Env) (config : Config) :
    started (Serve env config).trace = (Serve env config).closes ∧
    closed (Serve env config).trace = (Serve env config).closes ∧
    (∃ A B, (Serve env config).trace = A ++ B ∧ (∀ ev ∈ A, ev.isClose = false) ∧
      (∀ ev ∈ B, ev.isClose = true) ∧ B.length = (Serve env config).closes.length) ∧
    ¬ (Event.signal ∈ (Serve env config).trace ∧
        ∃ ev ∈ (Serve env config).trace, ev.startError ≠ none) := by
  rcases Serve_shape env config with ⟨_, e, _, _, htr, hcl⟩ | ⟨P, p, hP, _, hS⟩
  · obtain ⟨P, hP1, hP2⟩ := getFirstOpenPort_probe_only env config.listen [22, 2222] []
    rw [htr, hcl, hP1]
    simp only [List.nil_append]
    refine ⟨started_eq_nil P (fun ev h => (isProbe_kinds ev (hP2 ev h)).1),
      closed_eq_nil P (fun ev h => (isProbe_kinds ev (hP2 ev h)).2.1),
      ⟨P, [], by simp, fun ev h => (isProbe_kinds ev (hP2 ev h)).2.1, by simp, rfl⟩, ?_⟩
    rintro ⟨hsig, _⟩
    exact (isProbe_kinds _ (hP2 _ hsig)).2.2.2 rfl
  · rw [hS]
    obtain ⟨L, hL, hcl, hrun⟩ := serveRegistry_shape env P (prepare { config with port := p })
    rcases hrun with ⟨hok, htr, _⟩ | ⟨L0, fe, e, hLe, hL0, hfe, htr, _⟩
    · have hlen := closeResults_length env (started L)
        (P ++ [.listing (prepare { config with port := p }).endpoints,
          .cmds (prepare { config with port := p }).endpoints] ++ L ++ [.signal])
      obtain ⟨r1, r2, r3, r4⟩ := trace_reading P L _ [.signal] (started L) _ hP hL
        (Or.inr rfl) hlen
      rw [htr, hcl]
      refine ⟨r1, r2, ⟨_, _, rfl, r3, zipWith_close_isClose _ _, by
        rw [List.length_zipWith, hlen, Nat.min_self]⟩, ?_⟩
      rintro ⟨_, ev, hev, hne⟩
      exact hne (hok ev (r4 ev hev hne))
    · have hlen := closeResults_length env (started L)
        (P ++ [.listing (prepare { config with port := p }).endpoints,
          .cmds (prepare { config with port := p }).endpoints] ++ L)
      obtain ⟨r1, r2, r3, r4⟩ := trace_reading P L (prepare { config with port := p }).endpoints
        [] (started L) _ hP hL (Or.inl rfl) hlen
      simp only [List.append_nil] at r1 r2 r3 r4
      rw [htr, hcl]
      refine ⟨r1, r2, ⟨_, _, rfl, r3, zipWith_close_isClose _ _, by
        rw [List.length_zipWith, hlen, Nat.min_self]⟩, ?_⟩
      rintro ⟨hsig, _⟩
      simp only [List.mem_append, List.mem_cons, List.mem_singleton, List.not_mem_nil,
        or_false] at hsig
      rcases hsig with ((h | h | h) | h) | h
      · exact (isProbe_kinds _ (hP _ h)).2.2.2 rfl
      · cases h
      · cases h
      · exact (isStartup_kinds _ (hL _ h)).2.2 rfl
      · exact (isClose_kinds _ (zipWith_close_isClose _ _ _ h)).2.2.2 rfl


/-- A list with exactly one element satisfying `p` splits around it in one way only. -/
theorem split_unique {α : Type} (p : α → Prop) (X : List α) :
    ∀ (P Y Q : List α) (x f : α), X ++ x :: Y = P ++ f :: Q →
      (∀ a ∈ X, ¬ p a) → p x → (∀ a ∈ Y, ¬ p a) → p f → P = X ∧ f = x ∧ Q = Y := by
  induction X with
  | nil =>
    intro P Y Q x f h _ _ hY hf
    cases P with
    | nil =>
      simp only [List.nil_append, List.cons.injEq] at h
      exact ⟨rfl, h.1.symm, h.2.symm⟩
    | cons b P =>
      simp only [List.nil_append, List.cons_append, List.cons.injEq] at h
      exact absurd hf (hY f (by rw [h.2]; simp))
  | cons a X ih =>
    intro P Y Q x f h hX hx hY hf
    cases P with
    | nil =>
      simp only [List.nil_append, List.cons_append, List.cons.injEq] at h
      exact absurd hf (by rw [← h.1]; exact hX a (List.mem_cons_self _ _))
    | cons b P =>
      simp only [List.cons_append, List.cons.injEq] at h
      obtain ⟨h1, h2, h3⟩ := ih P Y Q x f h.2
        (fun c hc => hX c (List.mem_cons_of_mem _ hc)) hx hY hf
      exact ⟨by rw [h.1, h1], h2, h3⟩

/-- A failed construction or bind is a startup event that starts no accept loop. -/
theorem started_failure (fe : Event) (e : Err) (h : fe.startError = some e) :
    started [fe] = [] ∧ fe.isStartup = true ∧ fe.isClose = false := by
  cases fe <;> simp_all [Event.startError, started, Event.isStartup, Event.isClose]

/-- A close event in a trace shows up among the closed servers. -/
theorem mem_closed (tr : List Event) (s : Server) (r : Option Err)
    (h : Event.close s r ∈ tr) : s ∈ closed tr := by
  induction tr with
  | nil => simp at h
  | cons ev tr ih =>
    rcases List.mem_cons.mp h with h1 | h1
    · subst h1; simp [closed]
    · cases ev <;> simp [closed, ih h1]

/-- A run in which a server construction or a bind fails: the failing event is the only
one of its kind; what follows it is exactly one close of each handle recorded before it,
in start order; and the returned error is the original error, followed, when some close
failed, by the close errors in that order. -/
theorem Serve_failure_run (env : Env) (config : Config) (pre : List Event) (fe : Event)
    (post : List Event) (e : Err)
    (htr : (Serve env config).trace = pre ++ fe :: post) (hfe : fe.startError = some e) :
    (∀ ev ∈ pre, ev.startError = none ∧ ev.isClose = false) ∧
    post = List.zipWith Event.close (started pre)
      (closeResults env (pre ++ [fe]) (started pre)) ∧
    (Serve env config).closes = started pre ∧
    (Serve env config).err =
      if (closeResults env (pre ++ [fe]) (started pre)).reduceOption = [] then
        some (.plain e)
      else some (.multi (e :: (closeResults env (pre ++ [fe]) (started pre)).reduceOption)) := by
  have hfe' : fe.startError ≠ none := by rw [hfe]; simp
  rcases Serve_shape env config with ⟨_, e0, _, _, htr0, _⟩ | ⟨P, p, hP, _, hS⟩
  · exfalso
    obtain ⟨P, hP1, hP2⟩ := getFirstOpenPort_probe_only env config.listen [22, 2222] []
    have hmem : fe ∈ P := by
      have : fe ∈ (Serve env config).trace := by rw [htr]; simp
      rw [htr0, hP1] at this
      simpa using this
    exact hfe' (isProbe_kinds fe (hP2 fe hmem)).2.2.1
  · rw [hS] at htr ⊢
    obtain ⟨L, hL, hcl, hrun⟩ := serveRegistry_shape env P (prepare { config with port := p })
    rcases hrun with ⟨hok, htr1, _⟩ | ⟨L0, fe1, e1, hLe, hL0, hfe1, htr1, herr⟩
    · exfalso
      have hlen := closeResults_length env (started L)
        (P ++ [.listing (prepare { config with port := p }).endpoints,
          .cmds (prepare { config with port := p }).endpoints] ++ L ++ [.signal])
      obtain ⟨_, _, _, r4⟩ := trace_reading P L _ [.signal] (started L) _ hP hL
        (Or.inr rfl) hlen
      have hmem : fe ∈ (serveRegistry env P (prepare { config with port := p })).trace := by
        rw [htr]; simp
      rw [htr1] at hmem
      exact hfe' (hok fe (r4 fe hmem hfe'))
    · subst hLe
      have hL0s : ∀ ev ∈ L0, ev.isStartup = true := fun ev h => hL ev (by simp [h])
      obtain ⟨_, _, r3, r4⟩ := trace_reading P L0 (prepare { config with port := p }).endpoints
        [] [] [] hP hL0s (Or.inl rfl) rfl
      simp only [List.zipWith_nil_right, List.append_nil] at r3 r4
      have hX : ∀ a ∈ P ++ [.listing (prepare { config with port := p }).endpoints,
          .cmds (prepare { config with port := p }).endpoints] ++ L0,
          ¬ (a.startError ≠ none) := by
        intro a ha hne
        exact hne (hL0 a (r4 a ha hne))
      have hY : ∀ a ∈ List.zipWith Event.close (started (L0 ++ [fe1]))
          (closeResults env (P ++ [.listing (prepare { config with port := p }).endpoints,
            .cmds (prepare { config with port := p }).endpoints] ++ (L0 ++ [fe1]))
            (started (L0 ++ [fe1]))),
          ¬ (a.startError ≠ none) := by
        intro a ha hne
        exact hne (isClose_kinds a (zipWith_close_isClose _ _ a ha)).2.2.1
      have heq : (P ++ [.listing (prepare { config with port := p }).endpoints,
          .cmds (prepare { config with port := p }).endpoints] ++ L0) ++ fe1 ::
          List.zipWith Event.close (started (L0 ++ [fe1]))
            (closeResults env (P ++ [.listing (prepare { config with port := p }).endpoints,
              .cmds (prepare { config with port := p }).endpoints] ++ (L0 ++ [fe1]))
              (started (L0 ++ [fe1]))) =
          pre ++ fe :: post := by
        rw [← htr, htr1]; simp only [List.append_assoc, List.singleton_append, List.cons_append,
          List.nil_append]
      obtain ⟨h1, h2, h3⟩ := split_unique (fun a : Event => a.startError ≠ none) _ _ _ _ _ _ heq
        hX (by simp [hfe1]) hY hfe'
      have hst : started (L0 ++ [fe1]) = started pre := by
        have hPs : started P = [] :=
          started_eq_nil P (fun ev h => (isProbe_kinds ev (hP ev h)).1)
        rw [h1, started_append, started_append, (started_failure fe1 e1 hfe1).1]
        simp [started_append, started, hPs]
      have hpre : P ++ [.listing (prepare { config with port := p }).endpoints,
          .cmds (prepare { config with port := p }).endpoints] ++ (L0 ++ [fe1]) =
          pre ++ [fe] := by
        rw [h1, h2]; simp
      have he : e1 = e := by
        rw [h2] at hfe; rw [hfe1] at hfe; simpa using hfe
      refine ⟨?_, ?_, ?_, ?_⟩
      · intro ev hev
        rw [h1] at hev
        refine ⟨?_, r3 ev hev⟩
        by_contra hne
        exact hX ev hev hne
      · rw [h3, hpre, hst]
      · rw [hcl, hst]
      · rw [herr, hpre, hst, he]


/-- C4: when a server construction or a bind fails, that failure is the first one of the
run; after it `Serve` invokes exactly the close handles of the listeners started before
it, each once and in start order, and does nothing else (no later endpoint is processed);
it returns the original error alone when every close succeeds, and otherwise an aggregate
whose first element is the original error, followed by the close errors in start order. -/
theorem Serve_rollback_on_failure (env : Env) (config : Config) (pre : List Event)
    (fe : Event) (post : List Event) (e : Err)
    (htr : (Serve env config).trace = pre ++ fe :: post) (hfe : fe.startError = some e) :
    (∀ ev ∈ pre, ev.startError = none) ∧
    post = List.zipWith Event.close (started pre)
      (closeResults env (pre ++ [fe]) (started pre)) ∧
    (closeResults env (pre ++ [fe]) (started pre)).length = (started pre).length ∧
    closed (Serve env config).trace = started pre ∧
    (Serve env config).err =
      if (closeResults env (pre ++ [fe]) (started pre)).reduceOption = [] then
        some (.plain e)
      else some (.multi (e :: (closeResults env (pre ++ [fe]) (started pre)).reduceOption)) := by
  obtain ⟨h1, h2, _, h4⟩ := Serve_failure_run env config pre fe post e htr hfe
  have hlen := closeResults_length env (started pre) (pre ++ [fe])
  refine ⟨fun ev hev => (h1 ev hev).1, h2, hlen, ?_, h4⟩
  rw [htr, closed_append, closed_eq_nil pre (fun ev hev => (h1 ev hev).2)]
  have : closed (fe :: post) = closed post := by
    have := (started_failure fe e hfe).2.2
    cases fe <;> simp_all [closed, Event.isClose]
  rw [List.nil_append, this, h2, closed_zipWith_close _ _ hlen]

/-- C4, witness: the bind of the second configured endpoint fails, and so does the close
of the directory's server. -/
theorem Serve_rollback_on_failure_witness :
    (closed (Serve envBindFails configThree).trace = [⟨0⟩, ⟨1⟩]) ∧
    (Serve envBindFails configThree).err =
      some (.multi ["address already in use", "close 0 failed"]) := by
  have h := Serve_rollback_on_failure envBindFails configThree
    [.listing configThree.endpoints, .cmds configThree.endpoints,
      .buildOk ⟨"list", "127.0.0.1:22", [.listing, .cmds]⟩ ⟨0⟩, .listen "127.0.0.1:22" none,
      .accept ⟨0⟩, .assign 1 "127.0.0.1:23", .buildOk ⟨"a", "127.0.0.1:23", [.custom 1]⟩ ⟨1⟩,
      .listen "127.0.0.1:23" none, .accept ⟨1⟩,
      .buildOk ⟨"b", "127.0.0.1:2200", [.custom 2]⟩ ⟨2⟩]
    (.listen "127.0.0.1:2200" (some "address already in use"))
    [.close ⟨0⟩ (some "close 0 failed"), .close ⟨1⟩ none]
    "address already in use" (by decide) rfl
  exact ⟨h.2.2.2.1, h.2.2.2.2.trans (by decide)⟩

/-- The servers read off the close events of a trace are those of its close events. -/
theorem closed_mem (tr : List Event) (s : Server) (h : s ∈ closed tr) :
    ∃ r, Event.close s r ∈ tr := by
  induction tr with
  | nil => simp [closed] at h
  | cons ev tr ih =>
    cases ev with
    | close s1 r1 =>
      simp only [closed, List.mem_cons] at h
      rcases h with h | h
      · subst h; exact ⟨r1, List.mem_cons_self _ _⟩
      · obtain ⟨r, hr⟩ := ih h
        exact ⟨r, List.mem_cons_of_mem _ hr⟩
    | _ =>
      simp only [closed] at h
      obtain ⟨r, hr⟩ := ih h
      exact ⟨r, List.mem_cons_of_mem _ hr⟩

/-- C10, counterexample: the factory hands out server 7 for the directory endpoint and
again for endpoint `b`; the bind of `b` fails, and the rollback invokes the `Close` of
server 7, the server instance built for `b`. -/
theorem Serve_shared_server_counterexample :
    (Serve envBindFails configShared).trace =
      [.listing [⟨"b", "127.0.0.1:2200", [.custom 2]⟩],
       .cmds [⟨"b", "127.0.0.1:2200", [.custom 2]⟩],
       .buildOk ⟨"list", "127.0.0.1:22", [.listing, .cmds]⟩ ⟨7⟩,
       .listen "127.0.0.1:22" none, .accept ⟨7⟩,
       .buildOk ⟨"b", "127.0.0.1:2200", [.custom 2]⟩ ⟨7⟩,
       .listen "127.0.0.1:2200" (some "address already in use"),
       .close ⟨7⟩ none] ∧
    closed (Serve envBindFails configShared).trace = [⟨7⟩] ∧
    (Serve envBindFails configShared).err = some (.plain "address already in use") := by
  decide

/-- C10, amended: `listenAndServe` never returns both a close handle and an error; when the
factory succeeds but the bind fails it returns no handle. In a run of `Serve` in which a
server was built and its bind failed, no handle is recorded for that endpoint: the handles
recorded, and invoked by the rollback, are exactly those of the listeners started before.
The `Close` of the server built for that endpoint is therefore invoked if and only if the
factory had handed out the very same server for an endpoint started earlier. -/
theorem listenAndServe_no_handle_on_error (env : Env) (config : Config) :
    (∀ (cfg : Config) (tr : List Event) (ep : Endpoint),
      ((listenAndServe cfg env tr ep).err ≠ none → (listenAndServe cfg env tr ep).close = none) ∧
      ((listenAndServe cfg env tr ep).close ≠ none → (listenAndServe cfg env tr ep).err = none) ∧
      (∀ s e, cfg.factory tr ep = .ok s →
        env.listen (tr ++ [.buildOk ep s]) ep.address = some e →
        listenAndServe cfg env tr ep =
          ⟨none, some e, tr ++ [.buildOk ep s, .listen ep.address (some e)]⟩)) ∧
    (∀ (pre : List Event) (ep : Endpoint) (s : Server) (a : String) (e : Err)
      (post : List Event),
      (Serve env config).trace = pre ++ .buildOk ep s :: .listen a (some e) :: post →
      (Serve env config).closes = started pre ∧
      closed (Serve env config).trace = started pre ∧
      ((∃ r, Event.close s r ∈ (Serve env config).trace) ↔ s ∈ started pre)) := by
  constructor
  · intro cfg tr ep
    refine ⟨?_, ?_, ?_⟩
    · rcases listenAndServe_cases cfg env tr ep with ⟨e, h⟩ | ⟨s, e, h⟩ | ⟨s, h⟩ <;> simp [h]
    · rcases listenAndServe_cases cfg env tr ep with ⟨e, h⟩ | ⟨s, e, h⟩ | ⟨s, h⟩ <;> simp [h]
    · intro s e hf hl
      simp [listenAndServe, hf, hl]
  · intro pre ep s a e post htr
    have htr' : (Serve env config).trace =
        (pre ++ [.buildOk ep s]) ++ .listen a (some e) :: post := by
      rw [htr]; simp
    obtain ⟨h1, h2, h3, _⟩ := Serve_failure_run env config _ _ post e htr' rfl
    have hst : started (pre ++ [.buildOk ep s]) = started pre := by
      simp [started_append, started]
    have hlen := closeResults_length env (started (pre ++ [.buildOk ep s]))
      (pre ++ [.buildOk ep s] ++ [.listen a (some e)])
    have hcl : closed (Serve env config).trace = started pre := by
      rw [htr', closed_append, closed_eq_nil _ (fun ev hev => (h1 ev hev).2)]
      simp only [List.nil_append, closed]
      rw [h2, closed_zipWith_close _ _ hlen, hst]
    refine ⟨by rw [h3, hst], hcl, ?_, ?_⟩
    · rintro ⟨r, hmem⟩
      exact hcl ▸ mem_closed _ s r hmem
    · intro hs
      exact closed_mem _ s (hcl ▸ hs)

/-- C10, witness: server 2 is built for the second configured endpoint, its bind fails,
and, no earlier endpoint having been given server 2, it is never closed. -/
theorem listenAndServe_no_handle_on_error_witness :
    (Serve envBindFails configThree).closes = [⟨0⟩, ⟨1⟩] ∧
    ∀ r, Event.close ⟨2⟩ r ∉ (Serve envBindFails configThree).trace := by
  have h := (listenAndServe_no_handle_on_error envBindFails configThree).2
    [.listing configThree.endpoints, .cmds configThree.endpoints,
      .buildOk ⟨"list", "127.0.0.1:22", [.listing, .cmds]⟩ ⟨0⟩, .listen "127.0.0.1:22" none,
      .accept ⟨0⟩, .assign 1 "127.0.0.1:23", .buildOk ⟨"a", "127.0.0.1:23", [.custom 1]⟩ ⟨1⟩,
      .listen "127.0.0.1:23" none, .accept ⟨1⟩]
    ⟨"b", "127.0.0.1:2200", [.custom 2]⟩ ⟨2⟩ "127.0.0.1:2200" "address already in use"
    [.close ⟨0⟩ (some "close 0 failed"), .close ⟨1⟩ none] (by decide)
  exact ⟨h.1, fun r hmem => absurd (h.2.2.mp ⟨r, hmem⟩) (by decide)⟩


/-- A run from line 36 on with an empty history never probes a port. -/
theorem serveRegistry_no_probe (env : Env) (config : Config) :
    ∀ ev ∈ (serveRegistry env [] config).trace, ev.isProbe = false := by
  obtain ⟨L, hL, _, hrun⟩ := serveRegistry_shape env [] config
  have hZ : ∀ (tr : List Event), ∀ ev ∈ List.zipWith Event.close (started L)
      (closeResults env tr (started L)), ev.isProbe = false :=
    fun tr ev h => (isClose_kinds ev (zipWith_close_isClose _ _ ev h)).1
  have hLp : ∀ ev ∈ L, ev.isProbe = false := fun ev h => (isStartup_kinds ev (hL ev h)).1
  rcases hrun with ⟨_, htr, _⟩ | ⟨L0, fe, e, _, _, _, htr, _⟩
  · intro ev hev
    rw [htr] at hev
    simp only [List.nil_append, List.mem_append, List.mem_cons, List.mem_singleton,
      List.not_mem_nil, or_false] at hev
    rcases hev with (((h | h) | h) | h) | h
    · subst h; rfl
    · subst h; rfl
    · exact hLp ev h
    · subst h; rfl
    · exact hZ _ ev h
  · intro ev hev
    rw [htr] at hev
    simp only [List.nil_append, List.mem_append, List.mem_cons, List.mem_singleton,
      List.not_mem_nil, or_false] at hev
    rcases hev with ((h | h) | h) | h
    · subst h; rfl
    · subst h; rfl
    · exact hLp ev h
    · exact hZ _ ev h

/-- C9, counterexample: port 0, both candidates occupied, and closing the probe
connection to port 22 fails; `Serve` returns that close error, not `NoPortsAvailable`. -/
theorem Serve_negotiation_close_error_counterexample :
    configTwo.port = 0 ∧
    (∀ tr a, envAllBusyCloseFails.dial tr a = none) ∧
    (Serve envAllBusyCloseFails configTwo).err = some (.plain "close failed") ∧
    (Serve envAllBusyCloseFails configTwo).err ≠ some (.plain NoPortsAvailable) ∧
    (Serve envAllBusyCloseFails configTwo).trace =
      [.dial "127.0.0.1:22" none, .connClose "127.0.0.1:22" (some "close failed")] := by
  refine ⟨rfl, fun _ _ => rfl, by decide, by decide, by decide⟩

/-- C9, amended: with port 0, when the negotiation over [22, 2222] on the configured listen
host fails, `Serve` returns the error of the negotiation and has done nothing but probe:
no factory call, no bind, no recorded handle, no close handle invoked. That error is
`NoPortsAvailable` when both candidates are occupied and both probe connections close
without error; when the probe connection to an occupied candidate fails to close, it is
that close error. With a non-zero port, no port is probed. -/
theorem Serve_negotiation (env : Env) (config : Config) :
    (config.port = 0 → ∀ e,
      (getFirstOpenPort env [] config.listen [22, 2222]).err = some e →
      (Serve env config).err = some (.plain e) ∧
      (Serve env config).trace = (getFirstOpenPort env [] config.listen [22, 2222]).trace ∧
      (∀ ev ∈ (Serve env config).trace,
        ev.isProbe = true ∧ ev.isStartup = false ∧ ev.isClose = false) ∧
      (Serve env config).closes = []) ∧
    (config.port = 0 →
      env.dial [] (toAddress config.listen 22) = none →
      env.connClose [.dial (toAddress config.listen 22) none] (toAddress config.listen 22) =
        none →
      env.dial (busyTrace config.listen [22]) (toAddress config.listen 2222) = none →
      env.connClose (busyTrace config.listen [22] ++ [.dial (toAddress config.listen 2222) none])
        (toAddress config.listen 2222) = none →
      (Serve env config).err = some (.plain NoPortsAvailable) ∧
      (Serve env config).trace = busyTrace config.listen [22, 2222]) ∧
    (config.port = 0 →
      env.dial [] (toAddress config.listen 22) = none →
      ∀ e, env.connClose [.dial (toAddress config.listen 22) none]
        (toAddress config.listen 22) = some e →
      (Serve env config).err = some (.plain e) ∧
      (Serve env config).trace =
        [.dial (toAddress config.listen 22) none,
         .connClose (toAddress config.listen 22) (some e)]) ∧
    (config.port = 0 →
      env.dial [] (toAddress config.listen 22) = none →
      env.connClose [.dial (toAddress config.listen 22) none] (toAddress config.listen 22) =
        none →
      env.dial (busyTrace config.listen [22]) (toAddress config.listen 2222) = none →
      ∀ e, env.connClose
        (busyTrace config.listen [22] ++ [.dial (toAddress config.listen 2222) none])
        (toAddress config.listen 2222) = some e →
      (Serve env config).err = some (.plain e) ∧
      (Serve env config).trace =
        busyTrace config.listen [22] ++
          [.dial (toAddress config.listen 2222) none,
           .connClose (toAddress config.listen 2222) (some e)]) ∧
    (config.port ≠ 0 → ∀ ev ∈ (Serve env config).trace, ev.isProbe = false) := by
  refine ⟨?_, ?_, ?_, ?_, ?_⟩
  · intro h0 e he
    obtain ⟨P, hP1, hP2⟩ := getFirstOpenPort_probe_only env config.listen [22, 2222] []
    have htr : (Serve env config).trace =
        (getFirstOpenPort env [] config.listen [22, 2222]).trace := by
      simp [Serve, h0, he]
    refine ⟨by simp [Serve, h0, he], htr, ?_, by simp [Serve, h0, he]⟩
    intro ev hev
    rw [htr, hP1] at hev
    have hp := hP2 ev (by simpa using hev)
    exact ⟨hp, (isProbe_kinds ev hp).1, (isProbe_kinds ev hp).2.1⟩
  · intro h0 h1 h2 h3 h4
    have hg : getFirstOpenPort env [] config.listen [22, 2222] =
        ⟨0, some NoPortsAvailable, busyTrace config.listen [22, 2222]⟩ := by
      simp only [busyTrace, List.nil_append, List.cons_append] at h3 h4
      simp [getFirstOpenPort, h1, h2, h3, h4, busyTrace]
    simp [Serve, h0, hg]
  · intro h0 h1 e h2
    have hg : getFirstOpenPort env [] config.listen [22, 2222] =
        ⟨0, some e, [.dial (toAddress config.listen 22) none,
          .connClose (toAddress config.listen 22) (some e)]⟩ := by
      simp [getFirstOpenPort, h1, h2]
    simp [Serve, h0, hg]
  · intro h0 h1 h2 h3 e h4
    have hg : getFirstOpenPort env [] config.listen [22, 2222] =
        ⟨0, some e, busyTrace config.listen [22] ++
          [.dial (toAddress config.listen 2222) none,
           .connClose (toAddress config.listen 2222) (some e)]⟩ := by
      simp only [busyTrace, List.nil_append, List.cons_append] at h3 h4
      simp [getFirstOpenPort, h1, h2, h3, h4, busyTrace]
    simp [Serve, h0, hg]
  · intro h0
    have : Serve env config = serveRegistry env [] (prepare config) := by
      simp [Serve, h0, serveResolved]
    rw [this]
    exact serveRegistry_no_probe env (prepare config)

/-- C9, witness: ports 22 and 2222 both occupied with port 0 configured, first with clean
probe closes and then with a failing one, and a run with port 22 configured. -/
theorem Serve_negotiation_witness :
    ((Serve envBusy configTwo).err = some (.plain NoPortsAvailable) ∧
      (Serve envBusy configTwo).trace =
        (getFirstOpenPort envBusy [] configTwo.listen [22, 2222]).trace ∧
      (∀ ev ∈ (Serve envBusy configTwo).trace,
        ev.isProbe = true ∧ ev.isStartup = false ∧ ev.isClose = false) ∧
      (Serve envBusy configTwo).closes = []) ∧
    ((Serve envBusy configTwo).err = some (.plain NoPortsAvailable) ∧
      (Serve envBusy configTwo).trace = busyTrace configTwo.listen [22, 2222]) ∧
    ((Serve envAllBusyCloseFails configTwo).err = some (.plain "close failed") ∧
      (Serve envAllBusyCloseFails configTwo).trace =
        [.dial (toAddress configTwo.listen 22) none,
         .connClose (toAddress configTwo.listen 22) (some "close failed")]) ∧
    (∀ ev ∈ (Serve envBindFails configThree).trace, ev.isProbe = false) :=
  ⟨(Serve_negotiation envBusy configTwo).1 rfl NoPortsAvailable (by decide),
    (Serve_negotiation envBusy configTwo).2.1 rfl (by decide) (by decide) (by decide)
      (by decide),
    (Serve_negotiation envAllBusyCloseFails configTwo).2.2.1 rfl rfl "close failed" rfl,
    (Serve_negotiation envBindFails configThree).2.2.2.2 (by decide)⟩


/-! ## Listener Orchestrator: addresses -/

/-- Incrementing commutes with the `int64` wrap-around. -/
theorem wrapInt64_succ (a b : Int) (h : wrapInt64 a = wrapInt64 b) :
    wrapInt64 (a + 1) = wrapInt64 (b + 1) ∧ wrapInt64 (wrapInt64 (a + 1)) = wrapInt64 (b + 1) := by
  unfold wrapInt64 at *
  omega

/-- A value in the `int64` range is left alone by the wrap-around. -/
theorem wrapInt64_of_inRange (x : Int) (h1 : -9223372036854775808 ≤ x)
    (h2 : x ≤ 9223372036854775807) : wrapInt64 x = x := by
  unfold wrapInt64
  omega

/-- The binds of a startup loop in which every endpoint is valid and listen-enabled and
nothing fails follow the address plan, and one handle is recorded per endpoint. -/
theorem startLoop_bound (config : Config) (env : Env) (p : Int) (eps : List Endpoint) :
    ∀ (idx : Nat) (st : LoopState) (k : Nat),
      wrapInt64 st.lastPort = wrapInt64 (p + k) →
      (∀ e ∈ eps, (env.valid e && env.shouldListen e) = true) →
      (startLoop config env idx st eps).err = none →
      bound (startLoop config env idx st eps).state.trace =
        bound st.trace ++ seqAddrs config.listen p k eps ∧
      (startLoop config env idx st eps).state.closes.length =
        st.closes.length + eps.length := by
  induction eps with
  | nil => intro idx st k _ _ _; simp [startLoop, seqAddrs]
  | cons ep rest ih =>
    intro idx st k hk hv herr
    have hvep := hv ep (List.mem_cons_self _ _)
    have hvrest : ∀ e ∈ rest, (env.valid e && env.shouldListen e) = true :=
      fun e he => hv e (List.mem_cons_of_mem _ he)
    rcases startLoop_cons config env idx st ep rest with
      ⟨hg, _⟩ | ⟨_, ⟨e, h⟩ | ⟨s, e, h⟩ | ⟨s, h⟩⟩
    · rw [hvep] at hg; cases hg
    · rw [h] at herr; cases herr
    · rw [h] at herr; cases herr
    · rw [h] at herr ⊢
      simp only at herr ⊢
      rcases assignAddress_cases config idx st ep with ⟨ha, hA⟩ | ⟨ha, hA⟩
      · rw [hA] at herr ⊢
        simp only at herr ⊢
        obtain ⟨h1, h2⟩ := ih (idx + 1)
          ⟨st.lastPort, st.closes ++ [s],
            st.trace ++ [.buildOk ep s, .listen ep.address none, .accept s]⟩ k hk hvrest herr
        rw [h1, h2]
        simp only [seqAddrs, ha, if_false, bound_append, bound, List.length_append,
          List.length_cons, List.length_nil]
        constructor
        · simp
        · omega
      · rw [hA] at herr ⊢
        simp only at herr ⊢
        have hw := wrapInt64_succ st.lastPort (p + k) hk
        have hk' : wrapInt64 (wrapInt64 (st.lastPort + 1)) = wrapInt64 (p + ((k + 1 : Nat) : Int)) := by
          rw [hw.2]; push_cast; ring_nf
        obtain ⟨h1, h2⟩ := ih (idx + 1)
          ⟨wrapInt64 (st.lastPort + 1), st.closes ++ [s],
            st.trace ++ [.assign idx (toAddress config.listen (wrapInt64 (st.lastPort + 1)))] ++
              [.buildOk { ep with address := toAddress config.listen (wrapInt64 (st.lastPort + 1)) } s,
                .listen (toAddress config.listen (wrapInt64 (st.lastPort + 1))) none, .accept s]⟩
          (k + 1) hk' hvrest herr
        rw [h1, h2]
        have hw1 : wrapInt64 (st.lastPort + 1) = wrapInt64 (p + ((k : Int) + 1)) := by
          rw [hw.1]; ring_nf
        simp only [seqAddrs, ha, if_true, bound_append, bound, List.length_append,
          List.length_cons, List.length_nil, hw1]
        constructor
        · simp
        · omega


/-- Link between a run from line 36 on and its startup loop. -/
theorem serveRegistry_loop (env : Env) (tr : List Event) (config : Config) :
    (serveRegistry env tr config).config.endpoints =
      (startLoop config env 0
        ⟨config.lastPort, [], tr ++ [.listing config.endpoints, .cmds config.endpoints]⟩
        (directory config.listen config.port :: config.endpoints)).records.tail ∧
    ((startLoop config env 0
        ⟨config.lastPort, [], tr ++ [.listing config.endpoints, .cmds config.endpoints]⟩
        (directory config.listen config.port :: config.endpoints)).err = none →
      (serveRegistry env tr config).trace =
        (closeAll env ((startLoop config env 0
          ⟨config.lastPort, [], tr ++ [.listing config.endpoints, .cmds config.endpoints]⟩
          (directory config.listen config.port :: config.endpoints)).state.trace ++ [.signal])
          (startLoop config env 0
          ⟨config.lastPort, [], tr ++ [.listing config.endpoints, .cmds config.endpoints]⟩
          (directory config.listen config.port :: config.endpoints)).state.closes).trace) ∧
    (∀ e, (startLoop config env 0
        ⟨config.lastPort, [], tr ++ [.listing config.endpoints, .cmds config.endpoints]⟩
        (directory config.listen config.port :: config.endpoints)).err = some e →
      ∃ fe ∈ (serveRegistry env tr config).trace, fe.startError = some e) := by
  refine ⟨?_, ?_, ?_⟩
  · unfold serveRegistry
    simp only []
    split
    · split <;> rfl
    · rfl
  · intro herr
    unfold serveRegistry
    simp only [herr]
  · intro e herr
    obtain ⟨L, h1, _, _, _, h5⟩ := startLoop_trace config env
      (directory config.listen config.port :: config.endpoints) 0
      ⟨config.lastPort, [], tr ++ [.listing config.endpoints, .cmds config.endpoints]⟩
    obtain ⟨L0, fe, hL, _, hfe⟩ := h5 e herr
    refine ⟨fe, ?_, hfe⟩
    have hmem : fe ∈ (startLoop config env 0
        ⟨config.lastPort, [], tr ++ [.listing config.endpoints, .cmds config.endpoints]⟩
        (directory config.listen config.port :: config.endpoints)).state.trace := by
      rw [h1, hL]; simp
    unfold serveRegistry
    simp only [herr]
    split <;> (simp only [closeAll_trace]; exact List.mem_append_left _ hmem)

/-- C5: with resolved base port `p` and host `h`, when the directory endpoint and every
configured endpoint are valid and listen-enabled and no construction or bind fails,
`Serve` binds one listener for the directory on `toAddress h p` and then one listener per
configured endpoint, in registry order: on its explicit address if it has one, and on
`toAddress h (p + k)` (the sum in `int64`, the plain sum as long as it fits) for the
`k`-th endpoint without address. -/
theorem Serve_binds_sequential (env : Env) (config : Config) (p : Int)
    (hp : (config.port ≠ 0 ∧ p = config.port) ∨
      (config.port = 0 ∧ (getFirstOpenPort env [] config.listen [22, 2222]).err = none ∧
        p = (getFirstOpenPort env [] config.listen [22, 2222]).port))
    (hdir : env.valid (directory (resolvedListen config) p) = true ∧
      env.shouldListen (directory (resolvedListen config) p) = true)
    (hvalid : ∀ e ∈ config.endpoints, env.valid e = true ∧ env.shouldListen e = true)
    (hok : ∀ ev ∈ (Serve env config).trace, ev.startError = none) :
    bound (Serve env config).trace =
      toAddress (resolvedListen config) p :: seqAddrs (resolvedListen config) p 0 config.endpoints ∧
    (bound (Serve env config).trace).length = config.endpoints.length + 1 ∧
    (started (Serve env config).trace).length = config.endpoints.length + 1 ∧
    (∀ k : Nat, -9223372036854775808 ≤ p + k → p + k ≤ 9223372036854775807 →
      wrapInt64 (p + k) = p + k) := by
  have hseqlen : ∀ (es : List Endpoint) (k : Nat),
      (seqAddrs (resolvedListen config) p k es).length = es.length := by
    intro es
    induction es with
    | nil => intro k; rfl
    | cons e es ih =>
      intro k
      by_cases he : e.address = "" <;> simp [seqAddrs, he, ih]
  rcases Serve_shape env config with ⟨h0, e, he, _⟩ | ⟨P, p', hP, hp', hS⟩
  · exfalso
    rcases hp with ⟨h, _⟩ | ⟨_, h, _⟩
    · exact h h0
    · rw [h] at he; cases he
  · have hpp : p' = p := by
      rcases hp with ⟨h, h1⟩ | ⟨h, _, h1⟩ <;> rcases hp' with ⟨g, g1, _⟩ | ⟨g, _, g1, _⟩
      · rw [g1, h1]
      · exact absurd g h
      · exact absurd h g
      · rw [g1, h1]
    subst hpp
    obtain ⟨f1, f2, f3, f4, _⟩ := prepare_fields { config with port := p' }
    have f1' : (prepare { config with port := p' }).listen = resolvedListen config := f1
    simp only at f2 f3 f4
    obtain ⟨_, hsucc, hfail⟩ := serveRegistry_loop env P (prepare { config with port := p' })
    rw [f1', f2, f3, f4] at hsucc hfail
    have herr : (startLoop (prepare { config with port := p' }) env 0
        ⟨p', [], P ++ [.listing config.endpoints, .cmds config.endpoints]⟩
        (directory (resolvedListen config) p' :: config.endpoints)).err = none := by
      cases h : (startLoop (prepare { config with port := p' }) env 0
        ⟨p', [], P ++ [.listing config.endpoints, .cmds config.endpoints]⟩
        (directory (resolvedListen config) p' :: config.endpoints)).err with
      | none => rfl
      | some e =>
        obtain ⟨fe, hmem, hfe⟩ := hfail e h
        rw [← hS] at hmem
        rw [hok fe hmem] at hfe
        cases hfe
    obtain ⟨L, l1, _, l3, _, _⟩ := startLoop_trace (prepare { config with port := p' }) env
      (directory (resolvedListen config) p' :: config.endpoints) 0
      ⟨p', [], P ++ [.listing config.endpoints, .cmds config.endpoints]⟩
    have hk : wrapInt64 (LoopState.mk p' []
        (P ++ [.listing config.endpoints, .cmds config.endpoints])).lastPort =
        wrapInt64 (p' + ((0 : Nat) : Int)) := by
      show wrapInt64 p' = wrapInt64 (p' + ((0 : Nat) : Int))
      rw [Nat.cast_zero, add_zero]
    have hv : ∀ e ∈ directory (resolvedListen config) p' :: config.endpoints,
        (env.valid e && env.shouldListen e) = true := by
      intro e he
      rcases List.mem_cons.mp he with h | h
      · rw [h, hdir.1, hdir.2]; rfl
      · rw [(hvalid e h).1, (hvalid e h).2]; rfl
    have hb0 := startLoop_bound (prepare { config with port := p' }) env p'
      (directory (resolvedListen config) p' :: config.endpoints) 0
      ⟨p', [], P ++ [.listing config.endpoints, .cmds config.endpoints]⟩ 0
    have hb1 := hb0 hk
    have hb2 := hb1 hv
    obtain ⟨b1, b2⟩ := hb2 herr
    have hPb : bound P = [] := bound_eq_nil P (fun ev h => (isProbe_kinds ev (hP ev h)).1)
    have hPs : started P = [] := started_eq_nil P (fun ev h => (isProbe_kinds ev (hP ev h)).1)
    have hZb : ∀ (t : List Event) (cs : List Server),
        bound (List.zipWith Event.close cs (closeResults env t cs)) = [] ∧
        started (List.zipWith Event.close cs (closeResults env t cs)) = [] := fun t cs =>
      ⟨bound_eq_nil _ (fun ev h => (isClose_kinds ev (zipWith_close_isClose _ _ ev h)).2.1),
        started_eq_nil _ (fun ev h => (isClose_kinds ev (zipWith_close_isClose _ _ ev h)).2.1)⟩
    have hdne : toAddress (resolvedListen config) p' ≠ "" := toAddress_ne_empty _ _
    have hb : bound (Serve env config).trace =
        toAddress (resolvedListen config) p' ::
          seqAddrs (resolvedListen config) p' 0 config.endpoints := by
      rw [hS, hsucc herr, closeAll_trace, bound_append, bound_append, (hZb _ _).1, b1,
        bound_append, hPb, f1']
      simp [bound, seqAddrs, hdne, directory]
    have hs : (started (Serve env config).trace).length = config.endpoints.length + 1 := by
      rw [hS, hsucc herr, closeAll_trace, started_append, started_append, (hZb _ _).2, l1,
        started_append, started_append, hPs]
      simp only [List.nil_append] at l3
      rw [l3] at b2
      simpa [started] using b2
    refine ⟨hb, ?_, hs, fun k h1 h2 => wrapInt64_of_inRange _ h1 h2⟩
    rw [hb]
    simp [hseqlen]

/-- C5, witness: host 127.0.0.1, no configured port, nothing occupied, two endpoints
without address. -/
theorem Serve_binds_sequential_witness :
    bound (Serve envFree configTwo).trace =
      ["127.0.0.1:22", "127.0.0.1:23", "127.0.0.1:24"] :=
  (Serve_binds_sequential envFree configTwo 22 (Or.inr ⟨rfl, by decide, by decide⟩)
    ⟨rfl, rfl⟩ (fun _ _ => ⟨rfl, rfl⟩) (by decide)).1.trans (by decide)


/-! ## Listener Orchestrator: the endpoint records -/

/-- The startup loop changes a record only by assigning an address to a valid,
listen-enabled endpoint that has none. -/
theorem startLoop_records (config : Config) (env : Env) (eps : List Endpoint) :
    ∀ (idx : Nat) (st : LoopState),
      List.Forall₂ (RecordStep env (startLoop config env idx st eps).state.trace) eps
        (startLoop config env idx st eps).records := by
  induction eps with
  | nil => intro idx st; simp [startLoop]
  | cons ep rest ih =>
    intro idx st
    have hrefl : ∀ (T : List Event), List.Forall₂ (RecordStep env T) rest rest :=
      fun T => List.forall₂_same.mpr (fun x _ => Or.inl rfl)
    have hhead : ∀ (T X : List Event), T = (assignAddress config idx st ep).2.trace ++ X →
        (env.valid ep && env.shouldListen ep) = true →
        RecordStep env T ep (assignAddress config idx st ep).1 := by
      intro T X hT hg
      rcases assignAddress_cases config idx st ep with ⟨_, hA⟩ | ⟨ha, hA⟩
      · rw [hA]; exact Or.inl rfl
      · right
        rw [hA] at hT
        rw [hA]
        simp only [Bool.and_eq_true] at hg
        refine ⟨ha, hg.1, hg.2, rfl, toAddress_ne_empty _ _, idx, ?_⟩
        rw [hT]; simp
    rcases startLoop_cons config env idx st ep rest with
      ⟨_, h⟩ | ⟨hg, ⟨e, h⟩ | ⟨s, e, h⟩ | ⟨s, h⟩⟩
    · rw [h]
      exact List.Forall₂.cons (Or.inl rfl) (ih (idx + 1) st)
    · rw [h]
      exact List.Forall₂.cons (hhead _ _ rfl hg) (hrefl _)
    · rw [h]
      exact List.Forall₂.cons (hhead _ _ rfl hg) (hrefl _)
    · rw [h]
      simp only
      obtain ⟨L, hL, _⟩ := startLoop_trace config env rest (idx + 1)
        ⟨(assignAddress config idx st ep).2.lastPort,
          (assignAddress config idx st ep).2.closes ++ [s],
          (assignAddress config idx st ep).2.trace ++
            [.buildOk (assignAddress config idx st ep).1 s,
             .listen (assignAddress config idx st ep).1.address none, .accept s]⟩
      refine List.Forall₂.cons (hhead _ ([.buildOk (assignAddress config idx st ep).1 s,
             .listen (assignAddress config idx st ep).1.address none, .accept s] ++ L) ?_ hg)
        (ih (idx + 1) _)
      rw [hL]; simp

/-- After a startup loop without failure, the addresses bound are those carried by the
final records of the valid, listen-enabled entries, in registry order. -/
theorem startLoop_bound_records (config : Config) (env : Env) (eps : List Endpoint) :
    ∀ (idx : Nat) (st : LoopState),
      (startLoop config env idx st eps).err = none →
      bound (startLoop config env idx st eps).state.trace =
        bound st.trace ++ listenedAddrs env eps (startLoop config env idx st eps).records := by
  induction eps with
  | nil => intro idx st _; simp [startLoop, listenedAddrs]
  | cons ep rest ih =>
    intro idx st herr
    rcases startLoop_cons config env idx st ep rest with
      ⟨hg, h⟩ | ⟨hg, ⟨e, h⟩ | ⟨s, e, h⟩ | ⟨s, h⟩⟩
    · rw [h] at herr ⊢
      simp only at herr ⊢
      rw [ih (idx + 1) st herr]
      simp [listenedAddrs, hg]
    · rw [h] at herr; cases herr
    · rw [h] at herr; cases herr
    · rw [h] at herr ⊢
      simp only at herr ⊢
      obtain ⟨A, hA1, _, _, _, hA5⟩ := assignAddress_trace config idx st ep
      rw [ih (idx + 1) _ herr]
      simp only [bound_append, hA1, hA5, bound, List.append_nil]
      simp [listenedAddrs, hg]


/-- The trace of a run from line 36 on extends the trace of its startup loop. -/
theorem serveRegistry_trace_extends (env : Env) (tr : List Event) (config : Config) :
    ∃ X, (serveRegistry env tr config).trace =
      (startLoop config env 0
        ⟨config.lastPort, [], tr ++ [.listing config.endpoints, .cmds config.endpoints]⟩
        (directory config.listen config.port :: config.endpoints)).state.trace ++ X := by
  unfold serveRegistry
  simp only []
  split
  · split
    · exact ⟨_, closeAll_trace _ _ _⟩
    · exact ⟨_, closeAll_trace _ _ _⟩
  · exact ⟨_, (closeAll_trace _ _ _).trans (List.append_assoc _ _ _)⟩

/-- A record step seen in a trace is seen in every extension of it. -/
theorem RecordStep_mono (env : Env) (T X : List Event) (e e' : Endpoint)
    (h : RecordStep env T e e') : RecordStep env (T ++ X) e e' := by
  rcases h with h | ⟨h1, h2, h3, h4, h5, i, h6⟩
  · exact Or.inl h
  · exact Or.inr ⟨h1, h2, h3, h4, h5, i, List.mem_append_left _ h6⟩

/-- C8, counterexample: host 127.0.0.1, no configured port, two endpoints without address.
The list handed to the listing and commands stages carries the empty address for both,
while they are bound on 127.0.0.1:23 and 127.0.0.1:24; and both records are assigned
after the accept loop of the directory endpoint has been started. -/
theorem Serve_directory_snapshot_counterexample :
    (Serve envFree configTwo).trace =
      [.dial "127.0.0.1:22" (some "connection refused"),
       .listing [⟨"a", "", [.custom 1]⟩, ⟨"b", "", [.custom 2]⟩],
       .cmds [⟨"a", "", [.custom 1]⟩, ⟨"b", "", [.custom 2]⟩],
       .buildOk ⟨"list", "127.0.0.1:22", [.listing, .cmds]⟩ ⟨0⟩,
       .listen "127.0.0.1:22" none, .accept ⟨0⟩,
       .assign 1 "127.0.0.1:23",
       .buildOk ⟨"a", "127.0.0.1:23", [.custom 1]⟩ ⟨1⟩,
       .listen "127.0.0.1:23" none, .accept ⟨1⟩,
       .assign 2 "127.0.0.1:24",
       .buildOk ⟨"b", "127.0.0.1:24", [.custom 2]⟩ ⟨2⟩,
       .listen "127.0.0.1:24" none, .accept ⟨2⟩,
       .signal, .close ⟨0⟩ none, .close ⟨1⟩ none, .close ⟨2⟩ none] ∧
    (Serve envFree configTwo).config.endpoints =
      [⟨"a", "127.0.0.1:23", [.custom 1]⟩, ⟨"b", "127.0.0.1:24", [.custom 2]⟩] := by
  decide

/-- C8, amended: the listing and commands stages are built once, over the configured
endpoint list as declared (an endpoint declared without address still has none at that
moment). Afterwards the only change made to a configured record is the assignment of its
sequential address to a valid, listen-enabled endpoint declared without address, made in
the startup loop; every other record, and every other field, stays as declared. When no
construction or bind fails, the listeners bound are those of the valid, listen-enabled
registry entries, each on the address its record carries in the end. -/
theorem Serve_directory_snapshot (env : Env) (config : Config) (p : Int)
    (hp : (config.port ≠ 0 ∧ p = config.port) ∨
      (config.port = 0 ∧ (getFirstOpenPort env [] config.listen [22, 2222]).err = none ∧
        p = (getFirstOpenPort env [] config.listen [22, 2222]).port)) :
    (∃ P rest, (∀ ev ∈ P, ev.isProbe = true) ∧
      (Serve env config).trace =
        P ++ .listing config.endpoints :: .cmds config.endpoints :: rest ∧
      (∀ ev ∈ rest, ∀ l, ev ≠ .listing l ∧ ev ≠ .cmds l)) ∧
    List.Forall₂ (RecordStep env (Serve env config).trace) config.endpoints
      (Serve env config).config.endpoints ∧
    ((∀ ev ∈ (Serve env config).trace, ev.startError = none) →
      bound (Serve env config).trace =
        listenedAddrs env (directory (resolvedListen config) p :: config.endpoints)
          (directory (resolvedListen config) p :: (Serve env config).config.endpoints)) := by
  rcases Serve_shape env config with ⟨h0, e, he, _⟩ | ⟨P, p', hP, hp', hS⟩
  · exfalso
    rcases hp with ⟨h, _⟩ | ⟨_, h, _⟩
    · exact h h0
    · rw [h] at he; cases he
  · have hpp : p' = p := by
      rcases hp with ⟨h, h1⟩ | ⟨h, _, h1⟩ <;> rcases hp' with ⟨g, g1, _⟩ | ⟨g, _, g1, _⟩
      · rw [g1, h1]
      · exact absurd g h
      · exact absurd h g
      · rw [g1, h1]
    subst hpp
    obtain ⟨f1, f2, f3, f4, _⟩ := prepare_fields { config with port := p' }
    have f1' : (prepare { config with port := p' }).listen = resolvedListen config := f1
    simp only at f2 f3 f4
    obtain ⟨hrec, hsucc, hfail⟩ := serveRegistry_loop env P (prepare { config with port := p' })
    obtain ⟨X, hX⟩ := serveRegistry_trace_extends env P (prepare { config with port := p' })
    have hF := startLoop_records (prepare { config with port := p' }) env
      (directory (prepare { config with port := p' }).listen
        (prepare { config with port := p' }).port ::
        (prepare { config with port := p' }).endpoints) 0
      ⟨(prepare { config with port := p' }).lastPort, [],
        P ++ [.listing (prepare { config with port := p' }).endpoints,
          .cmds (prepare { config with port := p' }).endpoints]⟩
    rw [f1', f2, f3, f4] at hrec hsucc hfail hX hF
    have hNotStage : ∀ ev : Event, (ev.isStartup = true ∨ ev.isClose = true ∨ ev = .signal) →
        ∀ l, ev ≠ .listing l ∧ ev ≠ .cmds l := by
      intro ev h l
      cases ev <;> simp_all [Event.isStartup, Event.isClose]
    refine ⟨?_, ?_, ?_⟩
    · obtain ⟨L, hL, _, hrun⟩ := serveRegistry_shape env P (prepare { config with port := p' })
      rw [f3] at hrun
      rcases hrun with ⟨_, htr, _⟩ | ⟨L0, fe, e, _, _, _, htr, _⟩
      · refine ⟨P, L ++ ([.signal] ++ List.zipWith Event.close (started L)
          (closeResults env (P ++ [.listing config.endpoints, .cmds config.endpoints] ++ L ++
            [.signal]) (started L))), hP, ?_, ?_⟩
        · rw [hS, htr]
          simp only [List.append_assoc, List.cons_append, List.nil_append]
        intro ev hev
        simp only [List.mem_append, List.mem_cons, List.mem_singleton, List.not_mem_nil,
          or_false] at hev
        rcases hev with h | h | h
        · exact hNotStage ev (Or.inl (hL ev h))
        · exact hNotStage ev (Or.inr (Or.inr h))
        · exact hNotStage ev (Or.inr (Or.inl (zipWith_close_isClose _ _ ev h)))
      · refine ⟨P, L ++ List.zipWith Event.close (started L)
          (closeResults env (P ++ [.listing config.endpoints, .cmds config.endpoints] ++ L)
            (started L)), hP, ?_, ?_⟩
        · rw [hS, htr]
          simp only [List.append_assoc, List.cons_append, List.nil_append]
        intro ev hev
        simp only [List.mem_append] at hev
        rcases hev with h | h
        · exact hNotStage ev (Or.inl (hL ev h))
        · exact hNotStage ev (Or.inr (Or.inl (zipWith_close_isClose _ _ ev h)))
    · obtain ⟨d', recs, _, tl, hrecs⟩ := List.forall₂_cons_left_iff.mp hF
      rw [hS, hrec, hX, hrecs]
      exact List.Forall₂.imp (fun a b h => RecordStep_mono env _ X a b h) tl
    · intro hok
      have herr : (startLoop (prepare { config with port := p' }) env 0
          ⟨p', [], P ++ [.listing config.endpoints, .cmds config.endpoints]⟩
          (directory (resolvedListen config) p' :: config.endpoints)).err = none := by
        cases h : (startLoop (prepare { config with port := p' }) env 0
          ⟨p', [], P ++ [.listing config.endpoints, .cmds config.endpoints]⟩
          (directory (resolvedListen config) p' :: config.endpoints)).err with
        | none => rfl
        | some e =>
          obtain ⟨fe, hmem, hfe⟩ := hfail e h
          rw [← hS] at hmem
          rw [hok fe hmem] at hfe
          cases hfe
      have hb0 := startLoop_bound_records (prepare { config with port := p' }) env
        (directory (resolvedListen config) p' :: config.endpoints) 0
        ⟨p', [], P ++ [.listing config.endpoints, .cmds config.endpoints]⟩
      have hb := hb0 herr
      have hPb : bound P = [] := bound_eq_nil P (fun ev h => (isProbe_kinds ev (hP ev h)).1)
      have hZb : ∀ (t : List Event) (cs : List Server),
          bound (List.zipWith Event.close cs (closeResults env t cs)) = [] := fun t cs =>
        bound_eq_nil _ (fun ev h => (isClose_kinds ev (zipWith_close_isClose _ _ ev h)).2.1)
      obtain ⟨d', recs, hd, _, hrecs⟩ := List.forall₂_cons_left_iff.mp hF
      have hd' : d' = directory (resolvedListen config) p' := by
        rcases hd with h | ⟨h, _⟩
        · exact h
        · exact absurd h (toAddress_ne_empty _ _)
      rw [hS, hsucc herr, closeAll_trace, bound_append, bound_append, hZb, hb, bound_append,
        hPb, hrec, hrecs, hd']
      simp [bound]

/-- C8, witness: the run of the counterexample. -/
theorem Serve_directory_snapshot_witness :
    bound (Serve envFree configTwo).trace =
      listenedAddrs envFree (directory (resolvedListen configTwo) 22 :: configTwo.endpoints)
        (directory (resolvedListen configTwo) 22 :: (Serve envFree configTwo).config.endpoints) :=
  (Serve_directory_snapshot envFree configTwo 22 (Or.inr ⟨rfl, by decide, by decide⟩)).2.2
    (by decide)

end Wishlist
